import Mathlib

/-!
# IntrinsicEd property view

A shallow embedding of `IntrinsicEd/src/IntrinsicEdPropertyView.cpp`: the
property document (an array of sixteen JSON objects), the provider and manager
entry lists, the collapsed-state map, the render cycle
`clearAndUpdatePropertyView` and the slots of the panel.

Conventions of the embedding.

* A `rapidjson::Value` is a `JVal`.  Numbers are exact integers.  Its member
  lookup (`HasMember`, `operator[]`, `FindMember`) returns the first member of
  that name; its `operator==` is the library's deep comparison.
* A JSON string is a `String`.  `GetString()` returns a pointer to its
  characters, and what `strcmp`, `QLabel(const char*)` and the construction of
  an `_INTR_STRING` from a `const char*` read through such a pointer is
  `cstr s`, the characters before the first NUL.
* An access the C++ code does not guard (an absent member, a getter of the
  wrong type, an index past the end of an array or vector) is a `Fault`, and
  every operation that can reach one returns `Except Fault`.
* Widgets are recorded by what the panel decides about them: a header by its
  title and collapsed flag, an editor by its kind, the provider index and the
  property name, in the order in which they are added to the layout.
* Calls of provider and manager functions are recorded as a list of `Call`s.
* A populate function is a function of the inspected reference: the inspected
  objects do not change between the render cycles of one statement.
-/

set_option autoImplicit false

namespace IntrinsicEd

/-! ## Data model -/

/-- A JSON value of the property document. -/
inductive JVal where
  | null
  | bool (b : Bool)
  | num (n : Int)
  | str (s : String)
  | arr (xs : List JVal)
  | obj (ms : List (String × JVal))

/-- The members of a JSON object, in member order. -/
abbrev Members := List (String × JVal)

/-- An unguarded access of the C++ code that has no defined result. -/
inductive Fault where
  | slotOutOfRange
  | notAnObject
  | missingMember
  | notABool
  | notAString
  | categoryOverflow
  | entryOutOfRange
  deriving DecidableEq, Repr

/-- The editor widget classes of the dispatch at lines 266-310. -/
inductive EditorKind where
  | vec2
  | vec3
  | vec4
  | string
  | enum
  | float
  | rotation
  deriving DecidableEq, Repr

/-- A widget of the scroll area layout. -/
inductive Widget where
  | header (title : String) (collapsed : Bool)
  | editor (kind : EditorKind) (provider : Nat) (name : String)
  | spacer
  deriving DecidableEq, Repr

/-- The type `Dod::PropertyCompilerEntry`: the inspected reference, the populate
function (the members it adds to the emptied slot) and the apply function,
which is external and known by its identity only. -/
structure PropertyCompilerEntry where
  ref : Nat
  compileFunction : Nat → Members
  initFunction : Nat

/-- The type `Dod::ManagerEntry`: three optional hooks, `none` for a null
function. -/
structure ManagerEntry where
  destroyResourcesFunction : Option Nat
  createResourcesFunction : Option Nat
  onPropertyUpdateFinishedFunction : Option Nat
  deriving DecidableEq, Repr

/-- An external call made by `onValueChanged`. -/
inductive Call where
  | initFunction (fn : Nat) (ref : Nat) (properties : JVal)
  | destroyResources (fn : Nat) (refs : List Nat)
  | createResources (fn : Nat) (refs : List Nat)
  | onPropertyUpdateFinished (fn : Nat) (ref : Nat)

/-- The members of `IntrinsicEdPropertyView` the slots read and write. -/
structure PropertyView where
  propertyDocument : List JVal
  currentPropertyCompilerEntries : List PropertyCompilerEntry
  currentManagerEntries : List ManagerEntry
  categoryCollapsedState : List (String × Bool)
  currentCategory : String
  autoCollapseChecked : Bool
  layout : List Widget

/-! ## rapidjson accessors -/

/-- The first member of the given name (`FindMember`). -/
def findMember (name : String) : Members → Option JVal
  | [] => none
  | (k, v) :: ms => if k = name then some v else findMember name ms

/-- The test `IsObject()`. -/
def JVal.isObject : JVal → Bool
  | .obj _ => true
  | _ => false

/-- The test `HasMember(name)`, used on objects only. -/
def JVal.hasMember (v : JVal) (name : String) : Bool :=
  match v with
  | .obj ms => (findMember name ms).isSome
  | _ => false

/-- The unchecked member access `v[name]`. -/
def JVal.member (v : JVal) (name : String) : Except Fault JVal :=
  match v with
  | .obj ms =>
    match findMember name ms with
    | some w => .ok w
    | none => .error .missingMember
  | _ => .error .notAnObject

/-- The getter `GetBool()`. -/
def JVal.getBool : JVal → Except Fault Bool
  | .bool b => .ok b
  | _ => .error .notABool

/-- The getter `GetString()`: the characters of the string, to be read through
the returned pointer. -/
def JVal.getString : JVal → Except Fault String
  | .str s => .ok s
  | _ => .error .notAString

/-- What is read through a `const char*` that points to the characters of `s`:
the characters before the first NUL. -/
def cstr (s : String) : String :=
  ⟨s.data.takeWhile (fun ch => ch != Char.ofNat 0)⟩

/-- The function `strcmp`: zero when the two C strings are equal, otherwise
negative or positive by their order. -/
def strcmp (a b : String) : Int :=
  if cstr a = cstr b then 0
  else if (cstr a).data < (cstr b).data then -1
  else 1

mutual
/-- The comparison `operator==` of `rapidjson::Value` (the JSON library the
panel uses), a deep comparison by value and not by identity: equal types, then
by type; an object compares its member count and looks every member of the
left side up by name in the right side. -/
def JVal.eqv : JVal → JVal → Bool
  | .null, .null => true
  | .bool a, .bool b => a == b
  | .num a, .num b => a == b
  | .str a, .str b => a == b
  | .arr xs, .arr ys => xs.length == ys.length && eqvElems xs ys
  | .obj ms, .obj ns => ms.length == ns.length && eqvMembers ms ns
  | _, _ => false
/-- Element-wise comparison of two arrays. -/
def eqvElems : List JVal → List JVal → Bool
  | [], _ => true
  | _ :: _, [] => false
  | x :: xs, y :: ys => x.eqv y && eqvElems xs ys
/-- Every member of the left side is found in the right side with an equal
value. -/
def eqvMembers : Members → Members → Bool
  | [], _ => true
  | (k, v) :: ms, ns =>
    (match findMember k ns with
     | some w => v.eqv w
     | none => false) && eqvMembers ms ns
end

/-! ## The collapsed-state map -/

/-- The lookup `_categoryCollapsedState.find(k)`. -/
def mapFind (m : List (String × Bool)) (k : String) : Option Bool :=
  match m with
  | [] => none
  | (k1, b) :: rest => if k1 = k then some b else mapFind rest k

/-- The assignment `_categoryCollapsedState[k] = v`. -/
def mapSet (m : List (String × Bool)) (k : String) (v : Bool) : List (String × Bool) :=
  match m with
  | [] => [(k, v)]
  | (k1, b) :: rest => if k1 = k then (k1, v) :: rest else (k1, b) :: mapSet rest k v

/-- The known categories of a collapsed-state map. -/
def mapKeys (m : List (String × Bool)) : List String :=
  m.map Prod.fst

/-! ## Construction and the provider list -/

/-- The constructor (lines 22-48): sixteen empty objects in the document. -/
def PropertyView.new : PropertyView :=
  { propertyDocument := List.replicate 16 (JVal.obj [])
    currentPropertyCompilerEntries := []
    currentManagerEntries := []
    categoryCollapsedState := []
    currentCategory := ""
    autoCollapseChecked := false
    layout := [] }

/-- The method `clearPropertySet` (lines 329-333). -/
def clearPropertySet (s : PropertyView) : PropertyView :=
  { s with currentPropertyCompilerEntries := [], currentManagerEntries := [] }

/-- The method `addPropertySet` (lines 335-341). -/
def addPropertySet (s : PropertyView) (p_Entry : PropertyCompilerEntry)
    (p_ManagerEntry : ManagerEntry) : PropertyView :=
  { s with
    currentPropertyCompilerEntries := s.currentPropertyCompilerEntries ++ [p_Entry]
    currentManagerEntries := s.currentManagerEntries ++ [p_ManagerEntry] }

/-! ## The render cycle -/

/-- The method `clearPropertyView` (lines 94-105): every layout item is taken
and deleted. -/
def clearPropertyView (s : PropertyView) : PropertyView :=
  { s with layout := [] }

/-- Lines 199-212: linear search of the category array, then a write at
`categoryCount`; the array has sixteen elements. -/
def addCategory (categories : List String) (cat : String) : Except Fault (List String) :=
  if categories.any (fun c => strcmp c cat == 0) then .ok categories
  else if categories.length < 16 then .ok (categories ++ [cat])
  else .error .categoryOverflow

/-- Lines 190-212: one member of the category collection loop. -/
def collectMember (categories : List String) (prop : JVal) : Except Fault (List String) :=
  if !prop.isObject || !prop.hasMember "cat" then .ok categories
  else do
    let internal ← (← prop.member "internal").getBool
    if internal then .ok categories
    else do
      let cat ← (← prop.member "cat").getString
      addCategory categories cat

/-- Lines 187-213: the category collection loop over the members of a slot. -/
def collectMembers : Members → List String → Except Fault (List String)
  | [], categories => .ok categories
  | (_, prop) :: rest, categories => do
    let categories1 ← collectMember categories prop
    collectMembers rest categories1

/-- Lines 172-214: for each provider, empty its slot, populate it and collect
the categories.  The list argument is the entries from index `ci` on. -/
def compileAndCollect : List PropertyCompilerEntry → Nat → List JVal → List String →
    Except Fault (List JVal × List String)
  | [], _, doc, categories => .ok (doc, categories)
  | compilerEntry :: rest, ci, doc, categories =>
    match doc[ci]? with
    | none => .error .slotOutOfRange
    | some (.obj _) =>
      let members := compilerEntry.compileFunction compilerEntry.ref
      match collectMembers members categories with
      | .error f => .error f
      | .ok categories1 => compileAndCollect rest (ci + 1) (doc.set ci (.obj members)) categories1
    | some _ => .error .notAnObject

/-- Lines 266-310: the chain of `strcmp` tests on the editor kind. -/
def dispatchEditor (editor : String) : Option EditorKind :=
  if strcmp editor "vec2" == 0 then some .vec2
  else if strcmp editor "vec3" == 0 then some .vec3
  else if strcmp editor "vec4" == 0 then some .vec4
  else if strcmp editor "string" == 0 then some .string
  else if strcmp editor "enum" == 0 then some .enum
  else if strcmp editor "float" == 0 then some .float
  else if strcmp editor "rotation" == 0 then some .rotation
  else none

/-- Lines 253-319: the widgets one member adds under the category `category`.
The editor is given the member name as a `const char*`. -/
def createPropertyEditor (category : String) (pi : Nat) (name : String) (prop : JVal) :
    Except Fault (List Widget) :=
  if !prop.isObject || !prop.hasMember "cat" then .ok []
  else do
    let cat ← (← prop.member "cat").getString
    let internal ← (← prop.member "internal").getBool
    if internal || strcmp category cat != 0 then .ok []
    else do
      let editor ← (← prop.member "editor").getString
      match dispatchEditor editor with
      | some kind => .ok [Widget.editor kind pi (cstr name)]
      | none => .ok []

/-- Lines 250-320: the member loop of one slot. -/
def addPropertyEditors (category : String) (pi : Nat) : Members → List Widget →
    Except Fault (List Widget)
  | [], layout => .ok layout
  | (name, prop) :: rest, layout => do
    let ws ← createPropertyEditor category pi name prop
    addPropertyEditors category pi rest (layout ++ ws)

/-- Lines 246-321: the provider loop of one category.  The list argument is the
entries from index `pi` on. -/
def addProviderEditors (category : String) (doc : List JVal) :
    List PropertyCompilerEntry → Nat → List Widget → Except Fault (List Widget)
  | [], _, layout => .ok layout
  | _ :: rest, pi, layout =>
    match doc[pi]? with
    | none => .error .slotOutOfRange
    | some (.obj members) =>
      match addPropertyEditors category pi members layout with
      | .error f => .error f
      | .ok layout1 => addProviderEditors category doc rest (pi + 1) layout1
    | some _ => .error .notAnObject

/-- Lines 219-236: the collapsed state of a category header and the map after
the lookup.  The map key and the string compared with the current category
are built from the `const char*` of the category. -/
def categoryCollapsedState (autoCollapse : Bool) (currentCategory : String)
    (m : List (String × Bool)) (category : String) : Bool × List (String × Bool) :=
  if !autoCollapse then
    match mapFind m (cstr category) with
    | some b => (b, m)
    | none => (false, mapSet m (cstr category) false)
  else (currentCategory != cstr category, m)

/-- The method `createCategoryHeaderWidget` (lines 107-157): a frame with the
title label, built from the `const char*` title, and a button whose icon is
`roundRight` when collapsed and `roundDown` otherwise. -/
def createCategoryHeaderWidget (p_Title : String) (p_Collapsed : Bool) : Widget :=
  Widget.header (cstr p_Title) p_Collapsed

/-- Lines 217-322: a header for each category and, unless it is collapsed,
its property editors. -/
def renderCategories (entries : List PropertyCompilerEntry) (doc : List JVal)
    (autoCollapse : Bool) (currentCategory : String) :
    List String → List (String × Bool) → List Widget →
    Except Fault (List (String × Bool) × List Widget)
  | [], m, layout => .ok (m, layout)
  | category :: rest, m, layout =>
    let st := categoryCollapsedState autoCollapse currentCategory m category
    let layout1 := layout ++ [createCategoryHeaderWidget category st.1]
    if st.1 then renderCategories entries doc autoCollapse currentCategory rest st.2 layout1
    else
      match addProviderEditors category doc entries 0 layout1 with
      | .error f => .error f
      | .ok layout2 =>
        renderCategories entries doc autoCollapse currentCategory rest st.2 layout2

/-- The method `clearAndUpdatePropertyView` (lines 159-327). -/
def clearAndUpdatePropertyView (s : PropertyView) : Except Fault PropertyView :=
  if s.propertyDocument.isEmpty then .ok s
  else
    let s1 := clearPropertyView s
    match compileAndCollect s1.currentPropertyCompilerEntries 0 s1.propertyDocument [] with
    | .error f => .error f
    | .ok (doc, categories) =>
      match renderCategories s1.currentPropertyCompilerEntries doc s1.autoCollapseChecked
          s1.currentCategory categories s1.categoryCollapsedState s1.layout with
      | .error f => .error f
      | .ok (m, layout) =>
        .ok { s1 with
              propertyDocument := doc
              categoryCollapsedState := m
              layout := layout ++ [Widget.spacer] }

/-! ## Slots -/

/-- The slot `onRefreshProperties` (lines 52-55). -/
def onRefreshProperties (s : PropertyView) : Except Fault PropertyView :=
  clearAndUpdatePropertyView s

/-- The slot `onCollapseAll` (lines 57-66). -/
def onCollapseAll (s : PropertyView) : Except Fault PropertyView :=
  clearAndUpdatePropertyView
    { s with categoryCollapsedState := s.categoryCollapsedState.map (fun e => (e.1, true)) }

/-- The slot `onExpandAll` (lines 68-77). -/
def onExpandAll (s : PropertyView) : Except Fault PropertyView :=
  clearAndUpdatePropertyView
    { s with categoryCollapsedState := s.categoryCollapsedState.map (fun e => (e.1, false)) }

/-- The slot `onAutoCollapsePropertyCategories` (lines 79-92). -/
def onAutoCollapsePropertyCategories (s : PropertyView) (p_Checked : Bool) :
    Except Fault PropertyView :=
  if p_Checked then
    clearAndUpdatePropertyView
      { s with
        categoryCollapsedState := s.categoryCollapsedState.map
          (fun e => (e.1, e.1 != s.currentCategory || s.currentCategory == "")) }
  else .ok s

/-- The signal `toggled(bool)` of the auto-collapse button (line 38): the
button takes the new checked state and the slot runs with it. -/
def autoCollapseToggled (s : PropertyView) (checked : Bool) : Except Fault PropertyView :=
  onAutoCollapsePropertyCategories { s with autoCollapseChecked := checked } checked

/-- Lines 386-394: the flag of a known category is flipped, an unknown
category is entered collapsed. -/
def toggleCollapsedState (m : List (String × Bool)) (cat : String) : List (String × Bool) :=
  match mapFind m cat with
  | some b => mapSet m cat (!b)
  | none => mapSet m cat true

/-- The slot `onCategoryHeaderClicked` (lines 372-411), for the header whose
title label reads `title`: `cat` is built from the `const char*` of that text,
the flag is toggled, the category becomes the current one and the panel is
rendered.  The icon set at lines 396-403 belongs to the header the render cycle
deletes. -/
def onCategoryHeaderClicked (s : PropertyView) (title : String) : Except Fault PropertyView :=
  let cat := cstr title
  clearAndUpdatePropertyView
    { s with
      categoryCollapsedState := toggleCollapsedState s.categoryCollapsedState cat
      currentCategory := cat }

/-- Lines 350-367: the calls made for a matching slot. -/
def valueChangedCalls (entry : PropertyCompilerEntry) (managerEntry : ManagerEntry)
    (p_Properties : JVal) : List Call :=
  [Call.initFunction entry.initFunction entry.ref p_Properties]
  ++ (match managerEntry.destroyResourcesFunction, managerEntry.createResourcesFunction with
      | some d, some c => [Call.destroyResources d [entry.ref], Call.createResources c [entry.ref]]
      | _, _ => [])
  ++ (match managerEntry.onPropertyUpdateFinishedFunction with
      | some f => [Call.onPropertyUpdateFinished f entry.ref]
      | none => [])

/-- Lines 345-369: the loop over the document slots from index `i` on. -/
def onValueChangedFrom (s : PropertyView) (p_Properties : JVal) :
    List JVal → Nat → List Call → Except Fault (List Call)
  | [], _, calls => .ok calls
  | currentProperties :: rest, i, calls =>
    if currentProperties.eqv p_Properties then
      match s.currentPropertyCompilerEntries[i]?, s.currentManagerEntries[i]? with
      | some entry, some managerEntry =>
        onValueChangedFrom s p_Properties rest (i + 1)
          (calls ++ valueChangedCalls entry managerEntry p_Properties)
      | _, _ => .error .entryOutOfRange
    else onValueChangedFrom s p_Properties rest (i + 1) calls

/-- The slot `onValueChanged` (lines 343-370). -/
def onValueChanged (s : PropertyView) (p_Properties : JVal) : Except Fault (List Call) :=
  onValueChangedFrom s p_Properties s.propertyDocument 0 []

/-! ## Reference definitions

The statements below compare the embedded code with these definitions, which
follow the wording of the specification. -/

/-- The `cat` string of a descriptor that contributes to the category list: the
descriptor is an object that carries a string `cat` and whose `internal` flag
is false. -/
def descriptorLabel (prop : JVal) : Option String :=
  match prop with
  | .obj ms =>
    match findMember "cat" ms, findMember "internal" ms with
    | some (.str c), some (.bool false) => some c
    | _, _ => none
  | _ => none

/-- The category label of such a descriptor as the panel reads it, a C
string. -/
def visibleCategory (prop : JVal) : Option String :=
  (descriptorLabel prop).map cstr

/-- The `cat` strings of the non-internal descriptors of the given sets, in
provider order, then member order. -/
def descriptorLabels (sets : List Members) : List String :=
  sets.flatMap (fun ms => ms.filterMap (fun m => descriptorLabel m.2))

/-- The category labels of the non-internal descriptors of the given sets, read
as C strings, in provider order, then member order. -/
def categoryLabels (sets : List Members) : List String :=
  sets.flatMap (fun ms => ms.filterMap (fun m => visibleCategory m.2))

/-- The pointers the category array holds after the collection: of the labels
with the same C string the first one. -/
def firstByCString : List String → List String
  | [] => []
  | c :: rest => c :: (firstByCString rest).filter (fun d => decide (cstr d ≠ cstr c))

/-- Every repeat of an already-seen label removed: order of first appearance. -/
def firstAppearance : List String → List String
  | [] => []
  | c :: rest => c :: (firstAppearance rest).filter (fun d => decide (d ≠ c))

/-- The titles of the category headers of a layout, in layout order. -/
def headerTitles (layout : List Widget) : List String :=
  layout.filterMap (fun w =>
    match w with
    | .header title _ => some title
    | _ => none)

/-- The editor kinds of the descriptor schema. -/
def recognizedEditors : List String :=
  ["vec2", "vec3", "vec4", "string", "enum", "float", "rotation"]

/-- The collapsed flag the header of `title` shows in a layout, if it has one. -/
def headerCollapsed (layout : List Widget) (title : String) : Option Bool :=
  match layout with
  | [] => none
  | .header t c :: rest => if t = title then some c else headerCollapsed rest title
  | _ :: rest => headerCollapsed rest title

/-- The descriptor sets the providers of a panel populate. -/
def populated (s : PropertyView) : List Members :=
  s.currentPropertyCompilerEntries.map (fun e => e.compileFunction e.ref)

/-- The descriptor schema of section 6: a descriptor object that carries `cat`
carries it as a string, has a boolean `internal` and, when it is not internal,
a string `editor`. -/
def descriptorOk (prop : JVal) : Bool :=
  match prop with
  | .obj ms =>
    match findMember "cat" ms with
    | none => true
    | some (.str _) =>
      match findMember "internal" ms with
      | some (.bool true) => true
      | some (.bool false) =>
        match findMember "editor" ms with
        | some (.str _) => true
        | _ => false
      | _ => false
    | some _ => false
  | _ => true

/-- The preconditions of a render cycle: the document of the constructor
(sixteen object slots), at most sixteen providers, descriptors that follow the
schema and at most sixteen distinct visible category labels. -/
structure Conforming (s : PropertyView) : Prop where
  slots : s.propertyDocument.length = 16
  objects : ∀ v ∈ s.propertyDocument, v.isObject = true
  providers : s.currentPropertyCompilerEntries.length ≤ 16
  descriptors : ∀ ms ∈ populated s, ∀ m ∈ ms, descriptorOk m.2 = true
  capacity : (firstAppearance (categoryLabels (populated s))).length ≤ 16

/-- The editor widget of one descriptor under a category: the descriptor is
visible, its label is the category and its editor kind is recognized. -/
def editorOf (category : String) (pi : Nat) (m : String × JVal) : Option Widget :=
  match visibleCategory m.2, m.2.member "editor" with
  | some c, .ok (.str e) =>
    if c = category then (dispatchEditor e).map (fun kind => Widget.editor kind pi (cstr m.1))
    else none
  | _, _ => none

/-- The editor widgets of a category: provider order from index `pi` on, then
member order. -/
def categoryEditors (category : String) : List Members → Nat → List Widget
  | [], _ => []
  | ms :: rest, pi => ms.filterMap (editorOf category pi) ++ categoryEditors category rest (pi + 1)

/-- The collapsed flag a render cycle shows for a category: with auto-collapse
off the stored flag, expanded when there is none; with auto-collapse on every
category but the current one is collapsed. -/
def shownCollapsed (s : PropertyView) (category : String) : Bool :=
  if s.autoCollapseChecked then s.currentCategory != category
  else (mapFind s.categoryCollapsedState category).getD false

/-- The header of a category followed, when it is expanded, by its editors. -/
def categorySection (s : PropertyView) (category : String) : List Widget :=
  Widget.header category (shownCollapsed s category)
    :: (if shownCollapsed s category then [] else categoryEditors category (populated s) 0)

/-- The layout a render cycle builds. -/
def expectedLayout (s : PropertyView) : List Widget :=
  (firstAppearance (categoryLabels (populated s))).flatMap (categorySection s) ++ [Widget.spacer]

/-- The collapsed-state map after a render cycle: with auto-collapse off every
rendered category that has no entry gets one, expanded. -/
def touchCategories (autoCollapse : Bool) (m : List (String × Bool)) (categories : List String) :
    List (String × Bool) :=
  categories.foldl (fun acc c => if autoCollapse then acc else
    match mapFind acc c with
    | some _ => acc
    | none => mapSet acc c false) m

/-- The document after a render cycle: the slots of the providers hold the
populated sets, the other slots are untouched. -/
def expectedDocument (s : PropertyView) : List JVal :=
  (populated s).map JVal.obj ++ s.propertyDocument.drop (populated s).length

/-- The panel after a render cycle. -/
def rendered (s : PropertyView) : PropertyView :=
  { s with
    propertyDocument := expectedDocument s
    categoryCollapsedState :=
      touchCategories s.autoCollapseChecked s.categoryCollapsedState
        (firstAppearance (categoryLabels (populated s)))
    layout := expectedLayout s }

/-! ## Concrete panels -/

/-- A visible descriptor of the given category and editor kind. -/
def descriptor (cat : String) (editor : String) : JVal :=
  .obj [("cat", .str cat), ("internal", .bool false), ("editor", .str editor), ("value", .num 0)]

/-- An internal descriptor of the given category. -/
def internalDescriptor (cat : String) : JVal :=
  .obj [("cat", .str cat), ("internal", .bool true), ("editor", .str "float")]

/-- A provider that populates the given set. -/
def provider (ref : Nat) (ms : Members) : PropertyCompilerEntry :=
  { ref := ref, compileFunction := fun _ => ms, initFunction := 100 + ref }

/-- A manager entry with all three hooks. -/
def fullManager : ManagerEntry :=
  { destroyResourcesFunction := some 1
    createResourcesFunction := some 2
    onPropertyUpdateFinishedFunction := some 3 }

/-- A panel with one provider whose descriptors carry the labels A, B, A, C. -/
def panelABAC : PropertyView :=
  addPropertySet PropertyView.new
    (provider 0 [("p", descriptor "A" "float"), ("q", descriptor "B" "vec3"),
      ("r", descriptor "A" "string"), ("s", descriptor "C" "enum")])
    fullManager

/-- The panel of `panelABAC` with the categories A, B and C known and
expanded, and B the current category. -/
def panelKnownABC : PropertyView :=
  { panelABAC with
    categoryCollapsedState := [("A", false), ("B", false), ("C", false)]
    currentCategory := "B" }

/-- The panel after this history: the panel of `panelABAC` is rendered, the
header of A is clicked and auto-collapse is switched on.  A is the current
category and the header of B shows collapsed. -/
def panelAutoA : Except Fault PropertyView := do
  let s1 ← clearAndUpdatePropertyView panelABAC
  let s2 ← onCategoryHeaderClicked s1 "A"
  autoCollapseToggled s2 true

/-- The panel after this history: in the panel of `panelAutoA` the header of B
is clicked and auto-collapse is switched off, which runs no render cycle.  The
header of A still shows collapsed while the stored flag of A is expanded. -/
def panelStaleA : Except Fault PropertyView := do
  let s1 ← panelAutoA
  let s2 ← onCategoryHeaderClicked s1 "B"
  autoCollapseToggled s2 false

/-- A fresh panel with one provider that populates the given set. -/
def panelWith (ms : Members) : PropertyView :=
  addPropertySet PropertyView.new (provider 0 ms) fullManager

/-- A panel whose provider carries an internal descriptor with a category of
its own between two visible ones. -/
def panelHidden : PropertyView :=
  panelWith [("p", descriptor "A" "float"), ("hidden", internalDescriptor "Z"),
    ("q", descriptor "B" "vec3")]

/-- The panel of `panelHidden` without the internal descriptor. -/
def panelHiddenAbsent : PropertyView :=
  panelWith [("p", descriptor "A" "float"), ("q", descriptor "B" "vec3")]

/-- A panel whose provider carries a descriptor of the editor kind `color`,
which the dispatch does not know, first of its category. -/
def panelOdd : PropertyView :=
  panelWith [("odd", descriptor "B" "color"), ("p", descriptor "A" "float"),
    ("q", descriptor "B" "vec3")]

/-- The panel of `panelOdd` without the descriptor of the unknown kind. -/
def panelOddAbsent : PropertyView :=
  panelWith [("p", descriptor "A" "float"), ("q", descriptor "B" "vec3")]

/-- The descriptor set of two inspected objects with the same property values. -/
def sharedSet : Members :=
  [("position", descriptor "Transform" "vec3")]

/-- A fresh panel with two providers, references 0 and 1, that populate equal
sets. -/
def twinPanel : PropertyView :=
  addPropertySet (addPropertySet PropertyView.new (provider 0 sharedSet) fullManager)
    (provider 1 sharedSet) fullManager

/-- The panel after this history: two providers with equal sets are set and
rendered, then the provider list is cleared, the first provider alone is set
and the panel is rendered again. -/
def stalePanel : Except Fault PropertyView := do
  let s1 ← clearAndUpdatePropertyView twinPanel
  clearAndUpdatePropertyView
    (addPropertySet (clearPropertySet s1) (provider 0 sharedSet) fullManager)

/-- A panel whose two descriptors carry labels that differ only after a NUL
character. -/
def panelNulLabels : PropertyView :=
  panelWith [("p", descriptor "A\x00x" "float"), ("q", descriptor "A\x00y" "vec3")]

/-- A panel whose descriptor carries an editor kind that reads `vec2` up to its
NUL character. -/
def panelNulEditor : PropertyView :=
  panelWith [("v", descriptor "A" "vec2\x00zz")]

/-! # Properties -/

/-! ## C strings and category collection -/

theorem strcmp_eq_zero (a b : String) : (strcmp a b == 0) = decide (cstr a = cstr b) := by
  unfold strcmp
  by_cases h : cstr a = cstr b
  · simp [h]
  · simp only [h, if_false]
    split <;> simp

theorem strcmp_ne_zero (a b : String) : (strcmp a b != 0) = decide (cstr a ≠ cstr b) := by
  have h := strcmp_eq_zero a b
  by_cases hc : cstr a = cstr b
  · simp only [hc, decide_True, beq_iff_eq] at h
    simp [bne, h, hc]
  · simp only [hc, decide_False, beq_eq_false_iff_ne, ne_eq] at h
    simp [bne, h, hc]

theorem collectMember_eq (categories : List String) (prop : JVal)
    (h : descriptorOk prop = true) :
    collectMember categories prop =
      match descriptorLabel prop with
      | some c => addCategory categories c
      | none => .ok categories := by
  cases prop with
  | obj ms =>
    simp only [descriptorOk] at h
    simp only [collectMember, descriptorLabel, JVal.isObject, JVal.hasMember, JVal.member]
    cases hc : findMember "cat" ms with
    | none => simp
    | some c =>
      rw [hc] at h
      cases c <;> try (simp at h; done)
      cases hi : findMember "internal" ms with
      | none => rw [hi] at h; simp at h
      | some i =>
        rw [hi] at h
        cases i <;> try (simp at h; done)
        rename_i b
        cases b
        · simp [bind, Except.bind, JVal.getBool, JVal.getString]
        · simp [bind, Except.bind, JVal.getBool, JVal.getString]
  | _ => simp [collectMember, descriptorLabel, JVal.isObject]

theorem firstByCString_cons_of_mem (c : String) (cats l : List String)
    (h : cstr c ∈ cats.map cstr) :
    (firstByCString (c :: l)).filter (fun d => decide (cstr d ∉ cats.map cstr)) =
      (firstByCString l).filter (fun d => decide (cstr d ∉ cats.map cstr)) := by
  simp only [firstByCString, List.filter_cons, List.filter_filter]
  simp only [h, not_true_eq_false, decide_False, Bool.false_eq_true, if_false]
  apply List.filter_congr
  intro y _
  by_cases hy : cstr y ∈ cats.map cstr
  · simp [hy]
  · have : cstr y ≠ cstr c := fun e => hy (e ▸ h)
    simp [hy, this]

theorem firstByCString_cons_of_not_mem (c : String) (cats l : List String)
    (h : cstr c ∉ cats.map cstr) :
    cats ++ (firstByCString (c :: l)).filter (fun d => decide (cstr d ∉ cats.map cstr)) =
      (cats ++ [c]) ++
        (firstByCString l).filter (fun d => decide (cstr d ∉ (cats ++ [c]).map cstr)) := by
  simp only [firstByCString, List.filter_cons, List.filter_filter]
  simp only [h, not_false_eq_true, decide_True, if_true, List.append_assoc, List.singleton_append]
  congr 2
  apply List.filter_congr
  intro y _
  by_cases hy : cstr y ∈ cats.map cstr <;> by_cases hc : cstr y = cstr c <;>
    simp [hy, hc]

theorem addCategory_of_mem (c : String) (cats : List String) (h : cstr c ∈ cats.map cstr) :
    addCategory cats c = .ok cats := by
  have : cats.any (fun d => strcmp d c == 0) = true := by
    simp only [List.any_eq_true, strcmp_eq_zero, decide_eq_true_eq]
    obtain ⟨d, hd, he⟩ := List.mem_map.1 h
    exact ⟨d, hd, he⟩
  simp [addCategory, this]

theorem addCategory_of_not_mem (c : String) (cats : List String) (h : cstr c ∉ cats.map cstr)
    (hlen : cats.length < 16) : addCategory cats c = .ok (cats ++ [c]) := by
  have : cats.any (fun d => strcmp d c == 0) = false := by
    rw [Bool.eq_false_iff]
    simp only [ne_eq, List.any_eq_true, strcmp_eq_zero, decide_eq_true_eq, not_exists, not_and]
    intro x hx e
    exact h (List.mem_map.2 ⟨x, hx, e⟩)
  simp [addCategory, this, hlen]

theorem collectMembers_eq (ms : Members) :
    ∀ (cats : List String),
      (∀ m ∈ ms, descriptorOk m.2 = true) →
      (cats ++ (firstByCString (ms.filterMap (fun m => descriptorLabel m.2))).filter
          (fun d => decide (cstr d ∉ cats.map cstr))).length ≤ 16 →
      collectMembers ms cats =
        .ok (cats ++ (firstByCString (ms.filterMap (fun m => descriptorLabel m.2))).filter
          (fun d => decide (cstr d ∉ cats.map cstr))) := by
  induction ms with
  | nil => intro cats _ _; simp [collectMembers, firstByCString]
  | cons m rest ih =>
    intro cats hok hcap
    obtain ⟨name, prop⟩ := m
    have hprop : descriptorOk prop = true := hok (name, prop) (List.mem_cons_self _ _)
    have hrest : ∀ m ∈ rest, descriptorOk m.2 = true :=
      fun m hm => hok m (List.mem_cons_of_mem _ hm)
    simp only [collectMembers, collectMember_eq cats prop hprop]
    cases hv : descriptorLabel prop with
    | none =>
      simp only [List.filterMap_cons, hv] at hcap ⊢
      simpa [bind, Except.bind] using ih cats hrest hcap
    | some c =>
      simp only [List.filterMap_cons, hv] at hcap ⊢
      by_cases hc : cstr c ∈ cats.map cstr
      · rw [firstByCString_cons_of_mem c cats _ hc] at hcap ⊢
        simpa [bind, Except.bind, addCategory_of_mem c cats hc] using ih cats hrest hcap
      · rw [firstByCString_cons_of_not_mem c cats _ hc] at hcap ⊢
        have hlen : cats.length < 16 := by
          simp only [List.length_append, List.length_singleton] at hcap
          omega
        simpa [bind, Except.bind, addCategory_of_not_mem c cats hc hlen] using
          ih (cats ++ [c]) hrest hcap

/-! ## The populate-and-collect loop -/

theorem firstByCString_append (l1 : List String) :
    ∀ (cats l2 : List String),
      cats ++ (firstByCString (l1 ++ l2)).filter (fun d => decide (cstr d ∉ cats.map cstr)) =
        (cats ++ (firstByCString l1).filter (fun d => decide (cstr d ∉ cats.map cstr))) ++
          (firstByCString l2).filter
            (fun d => decide (cstr d ∉
              (cats ++ (firstByCString l1).filter
                (fun d => decide (cstr d ∉ cats.map cstr))).map cstr)) := by
  induction l1 with
  | nil => intro cats l2; simp [firstByCString]
  | cons c l ih =>
    intro cats l2
    by_cases hc : cstr c ∈ cats.map cstr
    · rw [List.cons_append, firstByCString_cons_of_mem c cats _ hc,
        firstByCString_cons_of_mem c cats _ hc]
      exact ih cats l2
    · rw [List.cons_append, firstByCString_cons_of_not_mem c cats _ hc,
        firstByCString_cons_of_not_mem c cats _ hc]
      exact ih (cats ++ [c]) l2

theorem map_cstr_firstByCString (l : List String) :
    (firstByCString l).map cstr = firstAppearance (l.map cstr) := by
  induction l with
  | nil => rfl
  | cons c l ih =>
    simp only [firstByCString, List.map_cons, firstAppearance, ← ih, List.filter_map]
    rfl

theorem categoryLabels_eq_map (sets : List Members) :
    categoryLabels sets = (descriptorLabels sets).map cstr := by
  induction sets with
  | nil => rfl
  | cons ms sets ih =>
    simp only [categoryLabels, descriptorLabels, List.flatMap_cons, List.map_append] at ih ⊢
    rw [ih]
    congr 1
    simp only [visibleCategory, List.map_filterMap]

theorem getElem?_length_append {α : Type} (done : List α) (v : α) (rem : List α) :
    (done ++ v :: rem)[done.length]? = some v := by
  rw [List.getElem?_append_right (Nat.le_refl _)]
  simp

theorem set_length_append {α : Type} (done : List α) (v x : α) (rem : List α) :
    (done ++ v :: rem).set done.length x = done ++ x :: rem := by
  induction done with
  | nil => rfl
  | cons a done ih => simp [ih]

theorem compileAndCollect_eq (es : List PropertyCompilerEntry) :
    ∀ (done rem : List JVal) (cats : List String),
      es.length ≤ rem.length →
      (∀ v ∈ rem, v.isObject = true) →
      (∀ ms ∈ es.map (fun e => e.compileFunction e.ref), ∀ m ∈ ms, descriptorOk m.2 = true) →
      (cats ++ (firstByCString
          (descriptorLabels (es.map (fun e => e.compileFunction e.ref)))).filter
          (fun d => decide (cstr d ∉ cats.map cstr))).length ≤ 16 →
      compileAndCollect es done.length (done ++ rem) cats =
        .ok (done ++ (es.map (fun e => JVal.obj (e.compileFunction e.ref)) ++ rem.drop es.length),
          cats ++ (firstByCString
            (descriptorLabels (es.map (fun e => e.compileFunction e.ref)))).filter
              (fun d => decide (cstr d ∉ cats.map cstr))) := by
  induction es with
  | nil =>
    intro done rem cats _ _ _ _
    simp [compileAndCollect, descriptorLabels, firstByCString]
  | cons e es ih =>
    intro done rem cats hlen hobj hok hcap
    cases rem with
    | nil => simp at hlen
    | cons v rem =>
      have hv : v.isObject = true := hobj v (List.mem_cons_self _ _)
      cases v with
      | obj old =>
        simp only [List.map_cons, descriptorLabels, List.flatMap_cons] at hcap hok ⊢
        rw [firstByCString_append] at hcap ⊢
        have hms : ∀ m ∈ e.compileFunction e.ref, descriptorOk m.2 = true :=
          hok _ (List.mem_cons_self _ _)
        have hcap1 : (cats ++ (firstByCString ((e.compileFunction e.ref).filterMap
            (fun m => descriptorLabel m.2))).filter
              (fun d => decide (cstr d ∉ cats.map cstr))).length ≤ 16 := by
          rw [List.length_append] at hcap
          omega
        simp only [compileAndCollect, getElem?_length_append, set_length_append,
          collectMembers_eq _ cats hms hcap1]
        have h := ih (done ++ [JVal.obj (e.compileFunction e.ref)]) rem _
          (by simpa using hlen) (fun v hv => hobj v (List.mem_cons_of_mem _ hv))
          (fun ms hms => hok ms (List.mem_cons_of_mem _ hms)) hcap
        simp only [List.length_append, List.length_singleton, List.append_assoc,
          List.singleton_append] at h
        simpa [descriptorLabels] using h
      | _ => simp [JVal.isObject] at hv

/-! ## The widget loops and the collapsed-state lookup -/

theorem createPropertyEditor_eq (category : String) (pi : Nat) (name : String) (prop : JVal)
    (h : descriptorOk prop = true) :
    createPropertyEditor category pi name prop =
      .ok (editorOf (cstr category) pi (name, prop)).toList := by
  cases prop with
  | obj ms =>
    simp only [descriptorOk] at h
    simp only [createPropertyEditor, editorOf, visibleCategory, descriptorLabel, JVal.isObject,
      JVal.hasMember, JVal.member, strcmp_ne_zero]
    cases hc : findMember "cat" ms with
    | none => simp
    | some c =>
      rw [hc] at h
      cases c <;> try (simp at h; done)
      rename_i c
      cases hi : findMember "internal" ms with
      | none => rw [hi] at h; simp at h
      | some i =>
        rw [hi] at h
        cases i <;> try (simp at h; done)
        rename_i b
        cases b
        · simp only at h
          cases he : findMember "editor" ms with
          | none => rw [he] at h; simp at h
          | some e =>
            rw [he] at h
            cases e <;> try (simp at h; done)
            rename_i e
            by_cases hcc : cstr c = cstr category
            · cases hd : dispatchEditor e <;>
                simp [bind, Except.bind, JVal.getBool, JVal.getString, hcc, hd]
            · have hcc1 : ¬ cstr category = cstr c := fun e => hcc e.symm
              simp [bind, Except.bind, JVal.getBool, JVal.getString, hcc, hcc1]
        · simp [bind, Except.bind, JVal.getBool, JVal.getString]
  | _ => simp [createPropertyEditor, editorOf, visibleCategory, descriptorLabel, JVal.isObject]

theorem addPropertyEditors_eq (category : String) (pi : Nat) (ms : Members) :
    ∀ (layout : List Widget), (∀ m ∈ ms, descriptorOk m.2 = true) →
      addPropertyEditors category pi ms layout =
        .ok (layout ++ ms.filterMap (editorOf (cstr category) pi)) := by
  induction ms with
  | nil => intro layout _; simp [addPropertyEditors]
  | cons m rest ih =>
    intro layout hok
    obtain ⟨name, prop⟩ := m
    have hprop : descriptorOk prop = true := hok (name, prop) (List.mem_cons_self _ _)
    simp only [addPropertyEditors, createPropertyEditor_eq category pi name prop hprop, bind,
      Except.bind, ih _ (fun m hm => hok m (List.mem_cons_of_mem _ hm)), List.filterMap_cons]
    cases editorOf (cstr category) pi (name, prop) <;> simp

theorem addProviderEditors_eq (category : String) (es : List PropertyCompilerEntry) :
    ∀ (sets : List Members) (done tail : List JVal) (layout : List Widget),
      es.length = sets.length →
      (∀ ms ∈ sets, ∀ m ∈ ms, descriptorOk m.2 = true) →
      addProviderEditors category (done ++ (sets.map JVal.obj ++ tail)) es done.length layout =
        .ok (layout ++ categoryEditors (cstr category) sets done.length) := by
  induction es with
  | nil =>
    intro sets done tail layout hlen _
    cases sets with
    | nil => simp [addProviderEditors, categoryEditors]
    | cons _ _ => simp at hlen
  | cons e es ih =>
    intro sets done tail layout hlen hok
    cases sets with
    | nil => simp at hlen
    | cons ms sets =>
      have h := ih sets (done ++ [JVal.obj ms]) tail
        (layout ++ ms.filterMap (editorOf (cstr category) done.length)) (by simpa using hlen)
        (fun ms hms => hok ms (List.mem_cons_of_mem _ hms))
      simp only [List.length_append, List.length_singleton, List.append_assoc,
        List.singleton_append] at h
      simp only [addProviderEditors, List.map_cons, List.cons_append, getElem?_length_append,
        addPropertyEditors_eq category done.length ms layout (hok ms (List.mem_cons_self _ _)),
        h, categoryEditors]

theorem mapFind_mapSet (m : List (String × Bool)) (k : String) (v : Bool) (k1 : String) :
    mapFind (mapSet m k v) k1 = if k = k1 then some v else mapFind m k1 := by
  induction m with
  | nil => simp [mapSet, mapFind]
  | cons e rest ih =>
    obtain ⟨k0, b⟩ := e
    by_cases h0 : k0 = k
    · subst h0
      by_cases h1 : k0 = k1 <;> simp [mapSet, mapFind, h1]
    · by_cases h1 : k0 = k1
      · subst h1
        have : ¬ k = k0 := fun e => h0 e.symm
        simp [mapSet, mapFind, h0, this]
      · simp [mapSet, mapFind, h0, h1, ih]

theorem categoryCollapsedState_fst (autoCollapse : Bool) (cur : String)
    (m : List (String × Bool)) (c : String) :
    (categoryCollapsedState autoCollapse cur m c).1 =
      if autoCollapse then cur != cstr c else (mapFind m (cstr c)).getD false := by
  cases autoCollapse
  · cases h : mapFind m (cstr c) <;> simp [categoryCollapsedState, h]
  · simp [categoryCollapsedState]

theorem categoryCollapsedState_snd_find (autoCollapse : Bool) (cur : String)
    (m : List (String × Bool)) (c k : String) :
    (mapFind (categoryCollapsedState autoCollapse cur m c).2 k).getD false =
      (mapFind m k).getD false := by
  cases autoCollapse
  · cases h : mapFind m (cstr c) with
    | some b => simp [categoryCollapsedState, h]
    | none =>
      simp only [categoryCollapsedState, h, Bool.not_false, if_true, mapFind_mapSet]
      by_cases hk : cstr c = k
      · subst hk; simp [h]
      · simp [hk]
  · simp [categoryCollapsedState]

theorem touchCategories_cons (autoCollapse : Bool) (cur : String) (m : List (String × Bool))
    (c : String) (cats : List String) :
    touchCategories autoCollapse m (cstr c :: cats) =
      touchCategories autoCollapse (categoryCollapsedState autoCollapse cur m c).2 cats := by
  cases autoCollapse
  · cases h : mapFind m (cstr c) <;> simp [touchCategories, categoryCollapsedState, h]
  · simp [touchCategories, categoryCollapsedState]

/-! ## The render cycle as a whole -/

theorem shownCollapsed_eq (s : PropertyView) (m : List (String × Bool)) (c : String)
    (hm : ∀ k, (mapFind m k).getD false = (mapFind s.categoryCollapsedState k).getD false) :
    (categoryCollapsedState s.autoCollapseChecked s.currentCategory m c).1 =
      shownCollapsed s (cstr c) := by
  rw [categoryCollapsedState_fst, shownCollapsed, hm]

theorem renderCategories_eq (s : PropertyView) (tail : List JVal)
    (hok : ∀ ms ∈ populated s, ∀ m ∈ ms, descriptorOk m.2 = true) (cats : List String) :
    ∀ (m : List (String × Bool)) (layout : List Widget),
      (∀ k, (mapFind m k).getD false = (mapFind s.categoryCollapsedState k).getD false) →
      renderCategories s.currentPropertyCompilerEntries ((populated s).map JVal.obj ++ tail)
          s.autoCollapseChecked s.currentCategory cats m layout =
        .ok (touchCategories s.autoCollapseChecked m (cats.map cstr),
          layout ++ (cats.map cstr).flatMap (categorySection s)) := by
  induction cats with
  | nil => intro m layout _; simp [renderCategories, touchCategories]
  | cons c cats ih =>
    intro m layout hm
    have h1 := shownCollapsed_eq s m c hm
    have h2 : ∀ k, (mapFind
        (categoryCollapsedState s.autoCollapseChecked s.currentCategory m c).2 k).getD false =
        (mapFind s.categoryCollapsedState k).getD false := by
      intro k
      rw [categoryCollapsedState_snd_find, hm]
    have hed := addProviderEditors_eq c s.currentPropertyCompilerEntries (populated s) [] tail
      (layout ++ [Widget.header (cstr c) (shownCollapsed s (cstr c))]) (by simp [populated]) hok
    simp only [List.nil_append, List.length_nil] at hed
    simp only [renderCategories, createCategoryHeaderWidget, h1, hed, List.map_cons,
      touchCategories_cons _ s.currentCategory,
      List.flatMap_cons, categorySection]
    cases hsc : shownCollapsed s (cstr c)
    · simp [ih _ _ h2]
    · simp [ih _ _ h2]

/-- The render cycle of a conforming panel returns, and returns the panel
`rendered` describes. -/
theorem clearAndUpdatePropertyView_eq (s : PropertyView) (h : Conforming s) :
    clearAndUpdatePropertyView s = .ok (rendered s) := by
  have hne : s.propertyDocument.isEmpty = false := by
    cases hd : s.propertyDocument with
    | nil => have := h.slots; simp [hd] at this
    | cons _ _ => rfl
  have hmap : (firstByCString (descriptorLabels (populated s))).map cstr =
      firstAppearance (categoryLabels (populated s)) := by
    rw [map_cstr_firstByCString, categoryLabels_eq_map]
  have hfil : ∀ l : List String,
      l.filter (fun d => decide (cstr d ∉ ([] : List String).map cstr)) = l := by
    intro l; simp
  have hcap : (([] : List String) ++ (firstByCString (descriptorLabels
      (s.currentPropertyCompilerEntries.map (fun e => e.compileFunction e.ref)))).filter
        (fun d => decide (cstr d ∉ ([] : List String).map cstr))).length ≤ 16 := by
    have hc := h.capacity
    rw [← hmap, List.length_map] at hc
    rw [hfil]
    simpa [populated] using hc
  have h1 := compileAndCollect_eq s.currentPropertyCompilerEntries [] s.propertyDocument []
    (by have := h.slots; have := h.providers; omega) h.objects h.descriptors hcap
  simp only [List.nil_append, List.length_nil] at h1
  rw [hfil] at h1
  have h2 := renderCategories_eq s (s.propertyDocument.drop s.currentPropertyCompilerEntries.length)
    h.descriptors (firstByCString (descriptorLabels (populated s))) s.categoryCollapsedState []
    (fun _ => rfl)
  rw [hmap] at h2
  simp only [populated, List.map_map, List.nil_append] at h2
  simp only [clearAndUpdatePropertyView, hne, clearPropertyView, h1]
  simp only [Function.comp_def] at h2 ⊢
  simp [h2, rendered, expectedDocument, expectedLayout, populated, Function.comp_def]

/-! ## Headers of the rendered layout -/

theorem Conforming.transfer {s t : PropertyView} (h : Conforming s)
    (hd : t.propertyDocument = s.propertyDocument)
    (he : t.currentPropertyCompilerEntries = s.currentPropertyCompilerEntries) :
    Conforming t := by
  have hp : populated t = populated s := by simp [populated, he]
  exact ⟨hd ▸ h.slots, hd ▸ h.objects, he ▸ h.providers, hp ▸ h.descriptors, hp ▸ h.capacity⟩

theorem mem_firstAppearance (l : List String) (c : String) :
    c ∈ firstAppearance l ↔ c ∈ l := by
  induction l with
  | nil => simp [firstAppearance]
  | cons x l ih =>
    simp only [firstAppearance, List.mem_cons, List.mem_filter, ih, decide_eq_true_eq]
    by_cases h : c = x <;> simp [h]

theorem firstAppearance_nodup (l : List String) : (firstAppearance l).Nodup := by
  induction l with
  | nil => simp [firstAppearance]
  | cons x l ih =>
    simp only [firstAppearance, List.nodup_cons, List.mem_filter, decide_eq_true_eq]
    exact ⟨fun h => h.2 rfl, ih.filter _⟩

theorem headerTitles_append (l1 l2 : List Widget) :
    headerTitles (l1 ++ l2) = headerTitles l1 ++ headerTitles l2 := by
  simp [headerTitles, List.filterMap_append]

theorem headerTitles_filterMap_editorOf (c : String) (pi : Nat) (ms : Members) :
    headerTitles (ms.filterMap (editorOf c pi)) = [] := by
  induction ms with
  | nil => rfl
  | cons m ms ih =>
    rw [List.filterMap_cons]
    cases h : editorOf c pi m with
    | none => simpa using ih
    | some w =>
      have hw : ∃ k, w = Widget.editor k pi (cstr m.1) := by
        unfold editorOf at h
        split at h
        · split at h
          · simp only [Option.map_eq_some'] at h
            obtain ⟨k, _, hk⟩ := h
            exact ⟨k, hk.symm⟩
          · cases h
        · cases h
      obtain ⟨k, rfl⟩ := hw
      simpa [headerTitles] using ih

theorem headerTitles_categoryEditors (c : String) (sets : List Members) :
    ∀ pi, headerTitles (categoryEditors c sets pi) = [] := by
  induction sets with
  | nil => intro pi; rfl
  | cons ms sets ih =>
    intro pi
    simp [categoryEditors, headerTitles_append, headerTitles_filterMap_editorOf, ih]

theorem headerTitles_categorySection (s : PropertyView) (c : String) :
    headerTitles (categorySection s c) = [c] := by
  have h := headerTitles_categoryEditors c (populated s) 0
  unfold categorySection
  cases shownCollapsed s c
  · simpa [headerTitles] using h
  · simp [headerTitles]

theorem headerTitles_flatMap_categorySection (s : PropertyView) (cats : List String) :
    headerTitles (cats.flatMap (categorySection s)) = cats := by
  induction cats with
  | nil => rfl
  | cons c cats ih =>
    simp [List.flatMap_cons, headerTitles_append, headerTitles_categorySection, ih]

theorem headerTitles_expectedLayout (s : PropertyView) :
    headerTitles (expectedLayout s) = firstAppearance (categoryLabels (populated s)) := by
  rw [expectedLayout, headerTitles_append, headerTitles_flatMap_categorySection]
  simp [headerTitles]

/-! ## Category order (C1) and auto-collapse (C3) -/

theorem touchCategories_auto (m : List (String × Bool)) (cats : List String) :
    touchCategories true m cats = m := by
  induction cats with
  | nil => rfl
  | cons c cats ih => simp [touchCategories]

theorem mapKeys_map_flag (m : List (String × Bool)) (f : String → Bool) :
    mapKeys (m.map (fun e => (e.1, f e.1))) = mapKeys m := by
  simp [mapKeys, List.map_map, Function.comp_def]

theorem mapFind_map_flag (m : List (String × Bool)) (f : String → Bool) (k : String)
    (hk : k ∈ mapKeys m) : mapFind (m.map (fun e => (e.1, f e.1))) k = some (f k) := by
  induction m with
  | nil => simp [mapKeys] at hk
  | cons e rest ih =>
    obtain ⟨k0, b⟩ := e
    by_cases h0 : k0 = k
    · subst h0; simp [mapFind]
    · have hk1 : k ∈ mapKeys rest := by
        simp only [mapKeys, List.map_cons, List.mem_cons] at hk
        rcases hk with hk | hk
        · exact absurd hk.symm h0
        · exact hk
      simpa [mapFind, h0] using ih hk1

theorem render_exists (t : PropertyView) (h : Conforming t) {P : PropertyView → Prop}
    (hP : P (rendered t)) : ∃ s1, clearAndUpdatePropertyView t = .ok s1 ∧ P s1 :=
  ⟨_, clearAndUpdatePropertyView_eq t h, hP⟩

theorem conforming_panelABAC : Conforming panelABAC :=
  ⟨by decide, by decide, by decide, by decide, by decide⟩

theorem conforming_panelKnownABC : Conforming panelKnownABC :=
  conforming_panelABAC.transfer rfl rfl

/-- C1 as stated fails: the two labels of this panel differ after a NUL
character, so neither repeats the other, and the render cycle shows one header,
titled A. -/
theorem C1_labels_equal_up_to_nul_share_a_header :
    firstAppearance (descriptorLabels (populated panelNulLabels)) = ["A\x00x", "A\x00y"] ∧
      (clearAndUpdatePropertyView panelNulLabels).map (fun s1 => headerTitles s1.layout) =
        .ok ["A"] := by
  exact ⟨by decide, rfl⟩

/-- C1, amended: in a render cycle of a panel with at most sixteen providers,
schema descriptors and at most sixteen distinct visible labels, the titles of
the rendered category headers are the labels of the non-internal descriptors
that carry `cat`, each read as a C string, in provider order then member order,
every repeat of an already-seen label removed: no duplicates, the same labels,
first appearance order.  When no label holds a NUL character these are the
labels themselves. -/
theorem C1_categories_first_appearance (s : PropertyView) (h : Conforming s) :
    ∃ s1, clearAndUpdatePropertyView s = .ok s1 ∧
      headerTitles s1.layout = firstAppearance ((descriptorLabels (populated s)).map cstr) ∧
      (headerTitles s1.layout).Nodup ∧
      (∀ c, c ∈ headerTitles s1.layout ↔ c ∈ (descriptorLabels (populated s)).map cstr) ∧
      ((∀ l ∈ descriptorLabels (populated s), cstr l = l) →
        headerTitles s1.layout = firstAppearance (descriptorLabels (populated s))) ∧
      firstAppearance ["A", "B", "A", "C"] = ["A", "B", "C"] := by
  have ht : headerTitles (rendered s).layout =
      firstAppearance ((descriptorLabels (populated s)).map cstr) := by
    show headerTitles (expectedLayout s) = _
    rw [headerTitles_expectedLayout, categoryLabels_eq_map]
  refine ⟨rendered s, clearAndUpdatePropertyView_eq s h, ht, ?_, ?_, ?_, by decide⟩
  · rw [ht]
    exact firstAppearance_nodup _
  · intro c
    rw [ht]
    exact mem_firstAppearance _ c
  · intro hnul
    rw [ht]
    congr 1
    conv_rhs => rw [← List.map_id (descriptorLabels (populated s))]
    exact List.map_congr_left (fun l hl => hnul l hl)

/-- C1, amended, at the panel whose descriptors carry the labels A, B, A, C:
the headers are A, B, C. -/
theorem C1_categories_first_appearance_witness :
    ∃ s1, clearAndUpdatePropertyView panelABAC = .ok s1 ∧
      headerTitles s1.layout = ["A", "B", "C"] := by
  obtain ⟨s1, h1, h2, _⟩ := C1_categories_first_appearance panelABAC conforming_panelABAC
  refine ⟨s1, h1, ?_⟩
  rw [h2]
  decide

/-- C3: with a non-empty current category c, the toggle of the auto-collapse
button to checked returns, leaves the known categories unchanged and sets the
flag of every known category k to true when k differs from c and to false when
k is c. -/
theorem C3_auto_collapse_sets_flags (s : PropertyView) (h : Conforming s)
    (hc : s.currentCategory ≠ "") :
    ∃ s1, autoCollapseToggled s true = .ok s1 ∧
      s1.categoryCollapsedState =
        s.categoryCollapsedState.map (fun e => (e.1, decide (e.1 ≠ s.currentCategory))) ∧
      mapKeys s1.categoryCollapsedState = mapKeys s.categoryCollapsedState ∧
      ∀ k ∈ mapKeys s.categoryCollapsedState,
        mapFind s1.categoryCollapsedState k = some (decide (k ≠ s.currentCategory)) := by
  have hmap : s.categoryCollapsedState.map
      (fun e => (e.1, e.1 != s.currentCategory || s.currentCategory == "")) =
      s.categoryCollapsedState.map (fun e => (e.1, decide (e.1 ≠ s.currentCategory))) := by
    apply List.map_congr_left
    intro e _
    by_cases he : e.1 = s.currentCategory <;> simp [he, hc]
  have hconf : Conforming { s with
      autoCollapseChecked := true
      categoryCollapsedState := s.categoryCollapsedState.map
        (fun e => (e.1, decide (e.1 ≠ s.currentCategory))) } := h.transfer rfl rfl
  simp only [autoCollapseToggled, onAutoCollapsePropertyCategories, if_true, hmap]
  refine render_exists _ hconf ?_
  refine ⟨?_, ?_, ?_⟩
  · simp [rendered, touchCategories_auto]
  · simp only [rendered, touchCategories_auto]
    exact mapKeys_map_flag _ (fun k => decide (k ≠ s.currentCategory))
  · intro k hk
    simp only [rendered, touchCategories_auto]
    exact mapFind_map_flag _ (fun k => decide (k ≠ s.currentCategory)) k hk

/-- C3 at current category B with the known categories A, B and C: the flags
become A collapsed, B expanded, C collapsed. -/
theorem C3_auto_collapse_sets_flags_witness :
    ∃ s1, autoCollapseToggled panelKnownABC true = .ok s1 ∧
      s1.categoryCollapsedState = [("A", true), ("B", false), ("C", true)] := by
  obtain ⟨s1, h1, h2, _⟩ :=
    C3_auto_collapse_sets_flags panelKnownABC conforming_panelKnownABC (by decide)
  refine ⟨s1, h1, ?_⟩
  rw [h2]
  decide

/-! ## The collapsed-state map across a render cycle -/

theorem mapFind_eq_none_iff (m : List (String × Bool)) (k : String) :
    mapFind m k = none ↔ k ∉ mapKeys m := by
  induction m with
  | nil => simp [mapFind, mapKeys]
  | cons e rest ih =>
    obtain ⟨k0, b⟩ := e
    by_cases h0 : k0 = k
    · subst h0; simp [mapFind, mapKeys]
    · have h1 : ¬ k = k0 := fun e => h0 e.symm
      simpa [mapFind, mapKeys, h0, h1] using ih

theorem mem_mapKeys_mapSet (m : List (String × Bool)) (k : String) (v : Bool) (k1 : String) :
    k1 ∈ mapKeys (mapSet m k v) ↔ k1 ∈ mapKeys m ∨ k1 = k := by
  induction m with
  | nil => simp [mapSet, mapKeys]
  | cons e rest ih =>
    obtain ⟨k0, b⟩ := e
    by_cases h0 : k0 = k
    · subst h0
      simp only [mapSet, if_true, mapKeys, List.map_cons, List.mem_cons]
      tauto
    · simp only [mapSet, h0, if_false, mapKeys, List.map_cons, List.mem_cons]
      simp only [mapKeys] at ih
      rw [ih, or_assoc]

theorem mapFind_touchCategories (a : Bool) (cats : List String) :
    ∀ (m : List (String × Bool)) (k : String),
      mapFind (touchCategories a m cats) k =
        match mapFind m k with
        | some b => some b
        | none => if a = false ∧ k ∈ cats then some false else none := by
  induction cats with
  | nil => intro m k; cases h : mapFind m k <;> simp [touchCategories, h]
  | cons c cats ih =>
    intro m k
    have hstep : touchCategories a m (c :: cats) =
        touchCategories a (if a then m else
          match mapFind m c with
          | some _ => m
          | none => mapSet m c false) cats := rfl
    rw [hstep, ih]
    cases a with
    | true => cases h : mapFind m k <;> simp [h]
    | false =>
      cases hc : mapFind m c with
      | some b =>
        cases h : mapFind m k with
        | some b1 => simp [h]
        | none =>
          have hne : ¬ k = c := fun e => by rw [e, hc] at h; cases h
          simp [h, hne]
      | none =>
        simp only [Bool.false_eq_true, if_false, mapFind_mapSet]
        by_cases hk : c = k
        · subst hk; simp [hc]
        · have hne : ¬ k = c := fun e => hk e.symm
          cases h : mapFind m k <;> simp [hk, hne, h]

theorem mem_mapKeys_iff (m : List (String × Bool)) (k : String) :
    k ∈ mapKeys m ↔ ∃ b, mapFind m k = some b := by
  have h := mapFind_eq_none_iff m k
  cases hf : mapFind m k with
  | none => simp [(h.1 hf)]
  | some b =>
    have : ¬ k ∉ mapKeys m := fun hn => by rw [h.2 hn] at hf; cases hf
    simp [not_not.1 this]

theorem mem_mapKeys_touchCategories (a : Bool) (cats : List String) (m : List (String × Bool))
    (k : String) :
    k ∈ mapKeys (touchCategories a m cats) ↔ k ∈ mapKeys m ∨ (a = false ∧ k ∈ cats) := by
  rw [mem_mapKeys_iff, mapFind_touchCategories, mem_mapKeys_iff]
  cases h : mapFind m k with
  | some b => simp
  | none =>
    by_cases hc : a = false ∧ k ∈ cats
    · simp [hc]
    · simp only [hc, if_false, or_false]

theorem mapFind_touchCategories_of_mem (a : Bool) (cats : List String)
    (m : List (String × Bool)) (k : String) (hk : k ∈ mapKeys m) :
    mapFind (touchCategories a m cats) k = mapFind m k := by
  obtain ⟨b, hb⟩ := (mem_mapKeys_iff m k).1 hk
  rw [mapFind_touchCategories, hb]

theorem mapFind_touchCategories_of_not_mem (a : Bool) (cats : List String)
    (m : List (String × Bool)) (k : String) (hk : k ∉ mapKeys m)
    (hk1 : k ∈ mapKeys (touchCategories a m cats)) :
    mapFind (touchCategories a m cats) k = some false := by
  have hn := (mapFind_eq_none_iff m k).2 hk
  rcases (mem_mapKeys_touchCategories a cats m k).1 hk1 with h | h
  · exact absurd h hk
  · rw [mapFind_touchCategories, hn]
    simp [h]

theorem conforming_rendered (s : PropertyView) (h : Conforming s) : Conforming (rendered s) := by
  have hp : populated (rendered s) = populated s := rfl
  have hlen : (populated s).length ≤ s.propertyDocument.length := by
    have := h.slots; have := h.providers
    simp only [populated, List.length_map]; omega
  refine ⟨?_, ?_, h.providers, hp ▸ h.descriptors, hp ▸ h.capacity⟩
  · show (expectedDocument s).length = 16
    have := h.slots
    simp only [expectedDocument, List.length_append, List.length_map, List.length_drop]
    omega
  · intro v hv
    have hv1 : v ∈ expectedDocument s := hv
    simp only [expectedDocument, List.mem_append, List.mem_map] at hv1
    rcases hv1 with ⟨ms, _, rfl⟩ | hv1
    · rfl
    · exact h.objects v (List.mem_of_mem_drop hv1)

/-! ## Refresh (C9), collapse-all and expand-all (C8) -/

/-- C9 as stated fails: the refresh of a fresh panel whose provider carries
the categories A, B and C enters them in the collapsed-state map, which knew no
category before. -/
theorem C9_refresh_adds_categories :
    mapKeys panelABAC.categoryCollapsedState = [] ∧
      (onRefreshProperties panelABAC).map (fun s1 => mapKeys s1.categoryCollapsedState) =
        .ok ["A", "B", "C"] := by
  exact ⟨rfl, rfl⟩

/-- C9, amended: a refresh returns and changes neither the provider and
manager entry lists, nor the current category, nor the auto-collapse mode, nor
the flag of any category known before; the known categories after it are those
known before and, with auto-collapse off, the rendered ones, a new one entered
expanded; with auto-collapse on the map is unchanged. -/
theorem C9_refresh_frame (s : PropertyView) (h : Conforming s) :
    ∃ s1, onRefreshProperties s = .ok s1 ∧
      s1.currentPropertyCompilerEntries = s.currentPropertyCompilerEntries ∧
      s1.currentManagerEntries = s.currentManagerEntries ∧
      s1.currentCategory = s.currentCategory ∧
      s1.autoCollapseChecked = s.autoCollapseChecked ∧
      (∀ k ∈ mapKeys s.categoryCollapsedState,
        mapFind s1.categoryCollapsedState k = mapFind s.categoryCollapsedState k) ∧
      (∀ k, k ∈ mapKeys s1.categoryCollapsedState ↔
        k ∈ mapKeys s.categoryCollapsedState ∨
          (s.autoCollapseChecked = false ∧ k ∈ headerTitles s1.layout)) ∧
      (∀ k ∈ mapKeys s1.categoryCollapsedState, k ∉ mapKeys s.categoryCollapsedState →
        mapFind s1.categoryCollapsedState k = some false) ∧
      (s.autoCollapseChecked = true → s1.categoryCollapsedState = s.categoryCollapsedState) := by
  refine ⟨rendered s, clearAndUpdatePropertyView_eq s h, rfl, rfl, rfl, rfl, ?_, ?_, ?_, ?_⟩
  · intro k hk
    exact mapFind_touchCategories_of_mem _ _ _ k hk
  · intro k
    show k ∈ mapKeys (touchCategories _ _ _) ↔ _ ∨ (_ ∧ k ∈ headerTitles (expectedLayout s))
    rw [headerTitles_expectedLayout]
    exact mem_mapKeys_touchCategories _ _ _ k
  · intro k hk hn
    exact mapFind_touchCategories_of_not_mem _ _ _ k hn hk
  · intro ha
    show touchCategories _ _ _ = _
    rw [ha, touchCategories_auto]

/-- C9, amended, at the fresh panel with the categories A, B and C. -/
theorem C9_refresh_frame_witness :
    ∃ s1, onRefreshProperties panelABAC = .ok s1 ∧
      s1.currentCategory = panelABAC.currentCategory ∧
      (∀ k ∈ mapKeys s1.categoryCollapsedState, k ∉ mapKeys panelABAC.categoryCollapsedState →
        mapFind s1.categoryCollapsedState k = some false) := by
  obtain ⟨s1, h1, _, _, h4, _, _, _, h8, _⟩ := C9_refresh_frame panelABAC conforming_panelABAC
  exact ⟨s1, h1, h4, h8⟩

/-- C8 as stated fails: collapse-all followed by expand-all on a fresh panel
whose provider carries the categories A, B and C leaves three known categories
where there was none. -/
theorem C8_collapse_expand_adds_categories :
    mapKeys panelABAC.categoryCollapsedState = [] ∧
      (onCollapseAll panelABAC >>= onExpandAll).map
        (fun s2 => mapKeys s2.categoryCollapsedState) = .ok ["A", "B", "C"] := by
  exact ⟨rfl, rfl⟩

/-- C8, amended: collapse-all returns and sets the flag of every category known
before to true; expand-all after it returns and leaves every known category
with flag false; the known categories after the two are those known before and,
with auto-collapse off, the rendered ones; with auto-collapse on they are
unchanged. -/
theorem C8_collapse_then_expand (s : PropertyView) (h : Conforming s) :
    ∃ s1 s2, onCollapseAll s = .ok s1 ∧ onExpandAll s1 = .ok s2 ∧
      (∀ k ∈ mapKeys s.categoryCollapsedState, mapFind s1.categoryCollapsedState k = some true) ∧
      (∀ k ∈ mapKeys s.categoryCollapsedState, mapFind s2.categoryCollapsedState k = some false) ∧
      (∀ k ∈ mapKeys s2.categoryCollapsedState, mapFind s2.categoryCollapsedState k = some false) ∧
      (∀ k, k ∈ mapKeys s2.categoryCollapsedState ↔
        k ∈ mapKeys s.categoryCollapsedState ∨
          (s.autoCollapseChecked = false ∧ k ∈ headerTitles s2.layout)) ∧
      (s.autoCollapseChecked = true →
        mapKeys s2.categoryCollapsedState = mapKeys s.categoryCollapsedState) := by
  have hc1 : Conforming { s with
      categoryCollapsedState := s.categoryCollapsedState.map (fun e => (e.1, true)) } :=
    h.transfer rfl rfl
  have hr1 := conforming_rendered _ hc1
  have hc2 : Conforming { rendered { s with
      categoryCollapsedState := s.categoryCollapsedState.map (fun e => (e.1, true)) } with
      categoryCollapsedState := (rendered { s with
        categoryCollapsedState := s.categoryCollapsedState.map
          (fun e => (e.1, true)) }).categoryCollapsedState.map (fun e => (e.1, false)) } :=
    hr1.transfer rfl rfl
  have key1 : ∀ k, k ∈ mapKeys (touchCategories s.autoCollapseChecked
      (s.categoryCollapsedState.map (fun e => (e.1, true)))
      (firstAppearance (categoryLabels (populated s)))) ↔
      k ∈ mapKeys s.categoryCollapsedState ∨
        (s.autoCollapseChecked = false ∧
          k ∈ firstAppearance (categoryLabels (populated s))) := by
    intro k
    rw [mem_mapKeys_touchCategories, mapKeys_map_flag _ (fun _ => true)]
  have key2 : ∀ k, k ∈ mapKeys (touchCategories s.autoCollapseChecked
      ((touchCategories s.autoCollapseChecked
        (s.categoryCollapsedState.map (fun e => (e.1, true)))
        (firstAppearance (categoryLabels (populated s)))).map (fun e => (e.1, false)))
      (firstAppearance (categoryLabels (populated s)))) ↔
      k ∈ mapKeys s.categoryCollapsedState ∨
        (s.autoCollapseChecked = false ∧
          k ∈ firstAppearance (categoryLabels (populated s))) := by
    intro k
    rw [mem_mapKeys_touchCategories, mapKeys_map_flag _ (fun _ => false), key1]
    tauto
  have find2 : ∀ k, k ∈ mapKeys (touchCategories s.autoCollapseChecked
      ((touchCategories s.autoCollapseChecked
        (s.categoryCollapsedState.map (fun e => (e.1, true)))
        (firstAppearance (categoryLabels (populated s)))).map (fun e => (e.1, false)))
      (firstAppearance (categoryLabels (populated s)))) →
      mapFind (touchCategories s.autoCollapseChecked
        ((touchCategories s.autoCollapseChecked
          (s.categoryCollapsedState.map (fun e => (e.1, true)))
          (firstAppearance (categoryLabels (populated s)))).map (fun e => (e.1, false)))
        (firstAppearance (categoryLabels (populated s)))) k = some false := by
    intro k hk
    by_cases hin : k ∈ mapKeys ((touchCategories s.autoCollapseChecked
        (s.categoryCollapsedState.map (fun e => (e.1, true)))
        (firstAppearance (categoryLabels (populated s)))).map (fun e => (e.1, false)))
    · rw [mapFind_touchCategories_of_mem _ _ _ k hin]
      rw [mapKeys_map_flag _ (fun _ => false)] at hin
      exact mapFind_map_flag _ (fun _ => false) k hin
    · exact mapFind_touchCategories_of_not_mem _ _ _ k hin hk
  refine ⟨_, _, clearAndUpdatePropertyView_eq _ hc1, clearAndUpdatePropertyView_eq _ hc2,
    ?_, ?_, ?_, ?_, ?_⟩
  · intro k hk
    show mapFind (touchCategories _ _ _) k = some true
    rw [mapFind_touchCategories_of_mem _ _ _ k (by rwa [mapKeys_map_flag _ (fun _ => true)])]
    exact mapFind_map_flag _ (fun _ => true) k hk
  · intro k hk
    exact find2 k ((key2 k).2 (Or.inl hk))
  · intro k hk
    exact find2 k hk
  · intro k
    rw [show headerTitles (rendered _).layout = headerTitles (expectedLayout _) from rfl,
      headerTitles_expectedLayout]
    exact key2 k
  · intro ha
    show mapKeys (touchCategories _ _ _) = _
    simp only [rendered, ha, touchCategories_auto]
    rw [mapKeys_map_flag _ (fun _ => false), mapKeys_map_flag _ (fun _ => true)]

/-- C8, amended, at the panel with the known categories A, B and C. -/
theorem C8_collapse_then_expand_witness :
    ∃ s1 s2, onCollapseAll panelKnownABC = .ok s1 ∧ onExpandAll s1 = .ok s2 ∧
      (∀ k ∈ mapKeys panelKnownABC.categoryCollapsedState,
        mapFind s1.categoryCollapsedState k = some true) ∧
      (∀ k ∈ mapKeys panelKnownABC.categoryCollapsedState,
        mapFind s2.categoryCollapsedState k = some false) := by
  obtain ⟨s1, s2, h1, h2, h3, h4, _⟩ := C8_collapse_then_expand panelKnownABC conforming_panelKnownABC
  exact ⟨s1, s2, h1, h2, h3, h4⟩

/-! ## The collapsed flag a header shows -/

theorem headerCollapsed_append_of_no_header (l1 l2 : List Widget) (c : String)
    (h : headerTitles l1 = []) : headerCollapsed (l1 ++ l2) c = headerCollapsed l2 c := by
  induction l1 with
  | nil => rfl
  | cons w l1 ih =>
    cases w with
    | header t b => simp [headerTitles] at h
    | editor k p n =>
      have h1 : headerTitles l1 = [] := by simpa [headerTitles] using h
      simpa [headerCollapsed] using ih h1
    | spacer =>
      have h1 : headerTitles l1 = [] := by simpa [headerTitles] using h
      simpa [headerCollapsed] using ih h1

theorem headerCollapsed_categorySection (s : PropertyView) (c0 : String) (l : List Widget)
    (c : String) :
    headerCollapsed (categorySection s c0 ++ l) c =
      if c0 = c then some (shownCollapsed s c0) else headerCollapsed l c := by
  by_cases h : c0 = c
  · simp [categorySection, headerCollapsed, h]
  · have he := headerTitles_categoryEditors c0 (populated s) 0
    simp only [categorySection, List.cons_append, headerCollapsed, h, if_false]
    cases shownCollapsed s c0
    · simpa using headerCollapsed_append_of_no_header _ l c he
    · simp

theorem headerCollapsed_flatMap (s : PropertyView) (cats : List String) (l : List Widget)
    (c : String) :
    headerCollapsed (cats.flatMap (categorySection s) ++ l) c =
      if c ∈ cats then some (shownCollapsed s c) else headerCollapsed l c := by
  induction cats with
  | nil => simp
  | cons c0 cats ih =>
    rw [List.flatMap_cons, List.append_assoc, headerCollapsed_categorySection, ih]
    by_cases h : c0 = c
    · subst h; simp
    · have h1 : ¬ c = c0 := fun e => h e.symm
      simp [h, h1]

theorem headerCollapsed_expectedLayout (s : PropertyView) (c : String) :
    headerCollapsed (expectedLayout s) c =
      if c ∈ firstAppearance (categoryLabels (populated s)) then some (shownCollapsed s c)
      else none := by
  rw [expectedLayout, headerCollapsed_flatMap]
  simp [headerCollapsed]

/-! ## Auto-collapse off (C4) and header clicks (C5) -/

theorem mapFind_toggleCollapsedState (m : List (String × Bool)) (c : String) :
    mapFind (toggleCollapsedState m c) c = some (!((mapFind m c).getD false)) := by
  cases h : mapFind m c <;> simp [toggleCollapsedState, h, mapFind_mapSet]

theorem mem_mapKeys_toggleCollapsedState (m : List (String × Bool)) (c : String) :
    c ∈ mapKeys (toggleCollapsedState m c) :=
  (mem_mapKeys_iff _ c).2 ⟨_, mapFind_toggleCollapsedState m c⟩

theorem mapFind_rendered_toggle (t : PropertyView) (c : String) :
    mapFind (touchCategories t.autoCollapseChecked
      (toggleCollapsedState t.categoryCollapsedState c)
      (firstAppearance (categoryLabels (populated t)))) c =
      some (!((mapFind t.categoryCollapsedState c).getD false)) := by
  rw [mapFind_touchCategories_of_mem _ _ _ c (mem_mapKeys_toggleCollapsedState _ c)]
  exact mapFind_toggleCollapsedState _ c

theorem headerTitles_rendered (t : PropertyView) :
    headerTitles (rendered t).layout = firstAppearance (categoryLabels (populated t)) :=
  headerTitles_expectedLayout t

theorem headerCollapsed_rendered (t : PropertyView) (c : String)
    (hc : c ∈ headerTitles (rendered t).layout) :
    headerCollapsed (rendered t).layout c = some (shownCollapsed t c) := by
  rw [headerTitles_rendered] at hc
  show headerCollapsed (expectedLayout t) c = _
  rw [headerCollapsed_expectedLayout, if_pos hc]

theorem getD_mapFind_touchCategories (a : Bool) (cats : List String)
    (m : List (String × Bool)) (k : String) :
    (mapFind (touchCategories a m cats) k).getD false = (mapFind m k).getD false := by
  rw [mapFind_touchCategories]
  cases h : mapFind m k with
  | some b => rfl
  | none =>
    by_cases hc : a = false ∧ k ∈ cats
    · simp [hc]
    · simp [hc]

/-- C4 as stated fails: with the categories A, B and C expanded and B current,
the toggle to checked and back leaves A collapsed. -/
theorem C4_flags_not_restored :
    mapFind panelKnownABC.categoryCollapsedState "A" = some false ∧
      (autoCollapseToggled panelKnownABC true >>= fun s1 => autoCollapseToggled s1 false).map
        (fun s2 => mapFind s2.categoryCollapsedState "A") = .ok (some true) := by
  exact ⟨rfl, rfl⟩

/-- C4, amended: the toggle to checked returns; the toggle back to unchecked
changes nothing but the mode and runs no render cycle; after the two the known
categories are those known before and the flag of each is the one written by
the first toggle (false for the non-empty current category, true for every
other); the render cycle that follows returns and the header of every such
category it renders shows that flag. -/
theorem C4_disable_keeps_written_flags (s : PropertyView) (h : Conforming s) :
    ∃ s1, autoCollapseToggled s true = .ok s1 ∧
      autoCollapseToggled s1 false = .ok { s1 with autoCollapseChecked := false } ∧
      mapKeys s1.categoryCollapsedState = mapKeys s.categoryCollapsedState ∧
      (∀ k ∈ mapKeys s.categoryCollapsedState,
        mapFind s1.categoryCollapsedState k =
          some (k != s.currentCategory || s.currentCategory == "")) ∧
      ∃ s3, clearAndUpdatePropertyView { s1 with autoCollapseChecked := false } = .ok s3 ∧
        headerTitles s3.layout = firstAppearance (categoryLabels (populated s)) ∧
        ∀ k ∈ mapKeys s.categoryCollapsedState, k ∈ headerTitles s3.layout →
          headerCollapsed s3.layout k =
            some (k != s.currentCategory || s.currentCategory == "") := by
  have hconf : Conforming { s with
      autoCollapseChecked := true
      categoryCollapsedState := s.categoryCollapsedState.map
        (fun e => (e.1, e.1 != s.currentCategory || s.currentCategory == "")) } :=
    h.transfer rfl rfl
  have hconf2 : Conforming { rendered { s with
        autoCollapseChecked := true
        categoryCollapsedState := s.categoryCollapsedState.map
          (fun e => (e.1, e.1 != s.currentCategory || s.currentCategory == "")) } with
      autoCollapseChecked := false } :=
    (conforming_rendered _ hconf).transfer rfl rfl
  simp only [autoCollapseToggled, onAutoCollapsePropertyCategories, if_true]
  refine render_exists _ hconf ?_
  have hfind : ∀ k ∈ mapKeys s.categoryCollapsedState,
      mapFind (s.categoryCollapsedState.map
        (fun e => (e.1, e.1 != s.currentCategory || s.currentCategory == ""))) k =
        some (k != s.currentCategory || s.currentCategory == "") := fun k hk =>
    mapFind_map_flag _ (fun k => k != s.currentCategory || s.currentCategory == "") k hk
  refine ⟨?_, ?_, ?_, ?_⟩
  · simp
  · simp only [rendered, touchCategories_auto]
    exact mapKeys_map_flag _ (fun k => k != s.currentCategory || s.currentCategory == "")
  · intro k hk
    simp only [rendered, touchCategories_auto]
    exact hfind k hk
  · refine render_exists _ hconf2 ⟨headerTitles_rendered _, ?_⟩
    intro k hk hmem
    rw [headerCollapsed_rendered _ k hmem]
    simp only [rendered, touchCategories_auto, shownCollapsed, hfind k hk]
    simp

/-- C4, amended, at the panel with the categories A, B and C expanded and B
current: after the two toggles the next render cycle shows A collapsed. -/
theorem C4_disable_keeps_written_flags_witness :
    ∃ s1, autoCollapseToggled panelKnownABC true = .ok s1 ∧
      autoCollapseToggled s1 false = .ok { s1 with autoCollapseChecked := false } ∧
      mapFind s1.categoryCollapsedState "A" = some true ∧
      ∃ s3, clearAndUpdatePropertyView { s1 with autoCollapseChecked := false } = .ok s3 ∧
        headerCollapsed s3.layout "A" = some true := by
  obtain ⟨s1, h1, h2, _, h4, s3, h5, h6, h7⟩ :=
    C4_disable_keeps_written_flags panelKnownABC conforming_panelKnownABC
  refine ⟨s1, h1, h2, h4 "A" (by decide), s3, h5, ?_⟩
  exact h7 "A" (by decide) (by rw [h6]; decide)

/-- C5 as stated fails in either mode, on panels reached from the constructor
by calls of the panel.  In the panel of `panelAutoA` auto-collapse is on, the
header of B shows collapsed, and after two clicks on it it shows expanded.  In
the panel of `panelStaleA` auto-collapse is off, the header of A shows
collapsed, and after two clicks on it it shows expanded. -/
theorem C5_icon_not_restored :
    panelAutoA.map (fun s => (s.autoCollapseChecked, headerCollapsed s.layout "B")) =
        .ok (true, some true) ∧
      (panelAutoA >>= fun s =>
        onCategoryHeaderClicked s "B" >>= fun s1 =>
        onCategoryHeaderClicked s1 "B").map (fun s2 => headerCollapsed s2.layout "B") =
        .ok (some false) ∧
      panelStaleA.map (fun s => (s.autoCollapseChecked, headerCollapsed s.layout "A")) =
        .ok (false, some true) ∧
      (panelStaleA >>= fun s =>
        onCategoryHeaderClicked s "A" >>= fun s1 =>
        onCategoryHeaderClicked s1 "A").map (fun s2 => headerCollapsed s2.layout "A") =
        .ok (some false) := by
  exact ⟨rfl, rfl, rfl, rfl⟩

/-- C5, amended: two clicks on the header of a category return; after them the
category is known and its flag is the one it had before the first click
(expanded if it was not known); the header rendered after the second click
shows that flag when auto-collapse is off and shows the category expanded when
auto-collapse is on, so it shows what the clicked header showed exactly when
the clicked header showed that; it does when the clicked header came from a
render cycle with auto-collapse off. -/
theorem C5_two_clicks (s : PropertyView) (h : Conforming s) (title : String) :
    ∃ s1 s2, onCategoryHeaderClicked s title = .ok s1 ∧
      onCategoryHeaderClicked s1 title = .ok s2 ∧
      mapFind s2.categoryCollapsedState (cstr title) =
        some ((mapFind s.categoryCollapsedState (cstr title)).getD false) ∧
      (cstr title ∈ mapKeys s.categoryCollapsedState →
        mapFind s2.categoryCollapsedState (cstr title) =
          mapFind s.categoryCollapsedState (cstr title)) ∧
      (cstr title ∈ headerTitles s2.layout →
        headerCollapsed s2.layout (cstr title) =
          some (if s.autoCollapseChecked then false
            else (mapFind s.categoryCollapsedState (cstr title)).getD false)) ∧
      (cstr title ∈ headerTitles s2.layout →
        (headerCollapsed s2.layout (cstr title) = headerCollapsed s.layout (cstr title) ↔
          headerCollapsed s.layout (cstr title) =
            some (if s.autoCollapseChecked then false
              else (mapFind s.categoryCollapsedState (cstr title)).getD false))) ∧
      (∀ s0, Conforming s0 → s0.autoCollapseChecked = false →
        clearAndUpdatePropertyView s0 = .ok s → cstr title ∈ headerTitles s.layout →
        headerCollapsed s2.layout (cstr title) = headerCollapsed s.layout (cstr title)) := by
  simp only [onCategoryHeaderClicked]
  generalize cstr title = c
  have hc1 : Conforming { s with
      categoryCollapsedState := toggleCollapsedState s.categoryCollapsedState c
      currentCategory := c } := h.transfer rfl rfl
  have hr1 := conforming_rendered _ hc1
  have hc2 : Conforming { rendered { s with
        categoryCollapsedState := toggleCollapsedState s.categoryCollapsedState c
        currentCategory := c } with
      categoryCollapsedState := toggleCollapsedState (rendered { s with
        categoryCollapsedState := toggleCollapsedState s.categoryCollapsedState c
        currentCategory := c }).categoryCollapsedState c
      currentCategory := c } := hr1.transfer rfl rfl
  have hflag1 : mapFind (rendered { s with
        categoryCollapsedState := toggleCollapsedState s.categoryCollapsedState c
        currentCategory := c }).categoryCollapsedState c =
      some (!((mapFind s.categoryCollapsedState c).getD false)) :=
    mapFind_rendered_toggle s c
  have hflag2 : mapFind (rendered { rendered { s with
        categoryCollapsedState := toggleCollapsedState s.categoryCollapsedState c
        currentCategory := c } with
      categoryCollapsedState := toggleCollapsedState (rendered { s with
        categoryCollapsedState := toggleCollapsedState s.categoryCollapsedState c
        currentCategory := c }).categoryCollapsedState c
      currentCategory := c }).categoryCollapsedState c =
      some ((mapFind s.categoryCollapsedState c).getD false) := by
    have h2 := mapFind_rendered_toggle (rendered { s with
        categoryCollapsedState := toggleCollapsedState s.categoryCollapsedState c
        currentCategory := c }) c
    rw [hflag1] at h2
    simpa using h2
  have htog2 : mapFind (toggleCollapsedState (rendered { s with
        categoryCollapsedState := toggleCollapsedState s.categoryCollapsedState c
        currentCategory := c }).categoryCollapsedState c) c =
      some ((mapFind s.categoryCollapsedState c).getD false) := by
    rw [mapFind_toggleCollapsedState, hflag1]
    simp
  have hshown : c ∈ headerTitles (rendered { rendered { s with
        categoryCollapsedState := toggleCollapsedState s.categoryCollapsedState c
        currentCategory := c } with
      categoryCollapsedState := toggleCollapsedState (rendered { s with
        categoryCollapsedState := toggleCollapsedState s.categoryCollapsedState c
        currentCategory := c }).categoryCollapsedState c
      currentCategory := c }).layout →
      headerCollapsed (rendered { rendered { s with
        categoryCollapsedState := toggleCollapsedState s.categoryCollapsedState c
        currentCategory := c } with
      categoryCollapsedState := toggleCollapsedState (rendered { s with
        categoryCollapsedState := toggleCollapsedState s.categoryCollapsedState c
        currentCategory := c }).categoryCollapsedState c
      currentCategory := c }).layout c =
        some (if s.autoCollapseChecked then false
          else (mapFind s.categoryCollapsedState c).getD false) := by
    intro hmem
    rw [headerCollapsed_rendered _ c hmem]
    cases ha : s.autoCollapseChecked with
    | true => simp [shownCollapsed, rendered, ha]
    | false =>
      simp only [rendered, ha] at htog2
      simp only [shownCollapsed, rendered, ha, Bool.false_eq_true, if_false, htog2]
      rfl
  refine ⟨_, _, clearAndUpdatePropertyView_eq _ hc1, clearAndUpdatePropertyView_eq _ hc2,
    hflag2, ?_, hshown, ?_, ?_⟩
  · intro hk
    obtain ⟨b, hb⟩ := (mem_mapKeys_iff _ c).1 hk
    rw [hflag2, hb]
    rfl
  · intro hmem
    rw [hshown hmem]
    exact ⟨fun e => e.symm, fun e => e.symm⟩
  · intro s0 h0 ha0 hrun hmem
    have hs : s = rendered s0 := by
      have h1 := clearAndUpdatePropertyView_eq s0 h0
      rw [hrun] at h1
      injection h1
    have hauto : s.autoCollapseChecked = false := by rw [hs]; exact ha0
    have hmem2 : c ∈ headerTitles (rendered { rendered { s with
          categoryCollapsedState := toggleCollapsedState s.categoryCollapsedState c
          currentCategory := c } with
        categoryCollapsedState := toggleCollapsedState (rendered { s with
          categoryCollapsedState := toggleCollapsedState s.categoryCollapsedState c
          currentCategory := c }).categoryCollapsedState c
        currentCategory := c }).layout := by
      rw [headerTitles_rendered]
      have hp : populated { rendered { s with
            categoryCollapsedState := toggleCollapsedState s.categoryCollapsedState c
            currentCategory := c } with
          categoryCollapsedState := toggleCollapsedState (rendered { s with
            categoryCollapsedState := toggleCollapsedState s.categoryCollapsedState c
            currentCategory := c }).categoryCollapsedState c
          currentCategory := c } = populated s0 := by rw [hs]; rfl
      rw [hp, ← headerTitles_rendered s0, ← hs]
      exact hmem
    rw [hshown hmem2, hauto]
    have hmem0 : c ∈ headerTitles (rendered s0).layout := hs ▸ hmem
    have hlay : headerCollapsed s.layout c = some (shownCollapsed s0 c) := by
      rw [hs]
      exact headerCollapsed_rendered s0 c hmem0
    rw [hlay]
    have hget : (mapFind s.categoryCollapsedState c).getD false =
        (mapFind s0.categoryCollapsedState c).getD false := by
      rw [hs]
      exact getD_mapFind_touchCategories _ _ _ c
    simp only [Bool.false_eq_true, if_false, hget, shownCollapsed, ha0]

/-- C5, amended, at the panel a render cycle of `panelABAC` leaves, clicked
on B: the flag of B is expanded again and the header of B shows what it showed
before the first click. -/
theorem C5_two_clicks_witness :
    ∃ s1 s2, onCategoryHeaderClicked (rendered panelABAC) "B" = .ok s1 ∧
      onCategoryHeaderClicked s1 "B" = .ok s2 ∧
      mapFind s2.categoryCollapsedState "B" = some false ∧
      headerCollapsed s2.layout "B" = headerCollapsed (rendered panelABAC).layout "B" := by
  obtain ⟨s1, s2, h1, h2, h3, _, _, _, h7⟩ :=
    C5_two_clicks (rendered panelABAC) (conforming_rendered _ conforming_panelABAC) "B"
  exact ⟨s1, s2, h1, h2, h3, h7 panelABAC conforming_panelABAC rfl
    (clearAndUpdatePropertyView_eq panelABAC conforming_panelABAC) (by decide)⟩

/-! ## Descriptors that add nothing to the layout -/

theorem dispatchEditor_unfold (e : String) :
    dispatchEditor e =
      if cstr e = "vec2" then some .vec2
      else if cstr e = "vec3" then some .vec3
      else if cstr e = "vec4" then some .vec4
      else if cstr e = "string" then some .string
      else if cstr e = "enum" then some .enum
      else if cstr e = "float" then some .float
      else if cstr e = "rotation" then some .rotation
      else none := by
  have h1 : cstr "vec2" = "vec2" := by decide
  have h2 : cstr "vec3" = "vec3" := by decide
  have h3 : cstr "vec4" = "vec4" := by decide
  have h4 : cstr "string" = "string" := by decide
  have h5 : cstr "enum" = "enum" := by decide
  have h6 : cstr "float" = "float" := by decide
  have h7 : cstr "rotation" = "rotation" := by decide
  simp only [dispatchEditor, strcmp_eq_zero, h1, h2, h3, h4, h5, h6, h7, decide_eq_true_eq]

theorem dispatchEditor_eq_none (e : String) (h : cstr e ∉ recognizedEditors) :
    dispatchEditor e = none := by
  simp only [recognizedEditors, List.mem_cons, List.mem_singleton, not_or, List.mem_nil_iff,
    or_false] at h
  obtain ⟨h1, h2, h3, h4, h5, h6, h7⟩ := h
  simp [dispatchEditor_unfold, h1, h2, h3, h4, h5, h6, h7]

theorem dispatchEditor_isSome_iff (e : String) :
    (dispatchEditor e).isSome = true ↔ cstr e ∈ recognizedEditors := by
  constructor
  · intro h
    by_contra hn
    rw [dispatchEditor_eq_none e hn] at h
    cases h
  · intro h
    simp only [recognizedEditors, List.mem_cons, List.mem_singleton, List.mem_nil_iff,
      or_false] at h
    rw [dispatchEditor_unfold]
    rcases h with h | h | h | h | h | h | h <;> rw [h] <;> decide

theorem descriptorLabel_of_internal (d : JVal) (h : d.member "internal" = .ok (.bool true)) :
    descriptorLabel d = none := by
  cases d with
  | obj ms =>
    simp only [JVal.member] at h
    cases hi : findMember "internal" ms with
    | none => rw [hi] at h; cases h
    | some i =>
      rw [hi] at h
      injection h with h
      subst h
      simp only [descriptorLabel, hi]
      cases findMember "cat" ms with
      | none => rfl
      | some c => cases c <;> rfl
  | _ => rfl

theorem visibleCategory_of_internal (d : JVal) (h : d.member "internal" = .ok (.bool true)) :
    visibleCategory d = none := by
  rw [visibleCategory, descriptorLabel_of_internal d h]
  rfl

theorem editorOf_of_not_visible (c : String) (pi : Nat) (m : String × JVal)
    (h : visibleCategory m.2 = none) : editorOf c pi m = none := by
  simp [editorOf, h]

theorem categoryLabels_split (A B : List Members) (X : Members) :
    categoryLabels (A ++ X :: B) =
      categoryLabels A ++ (X.filterMap (fun m => visibleCategory m.2) ++ categoryLabels B) := by
  simp [categoryLabels, List.flatMap_append, List.flatMap_cons]

theorem categoryEditors_append (c : String) (A : List Members) :
    ∀ (B : List Members) (pi : Nat),
      categoryEditors c (A ++ B) pi =
        categoryEditors c A pi ++ categoryEditors c B (pi + A.length) := by
  induction A with
  | nil => intro B pi; simp [categoryEditors]
  | cons ms A ih =>
    intro B pi
    rw [List.cons_append]
    simp only [categoryEditors, List.length_cons]
    rw [ih, List.append_assoc, show pi + 1 + A.length = pi + (A.length + 1) by omega]

theorem filterMap_skip {α β : Type} (f : α → Option β) (pre post : List α) (x : α)
    (h : f x = none) : (pre ++ x :: post).filterMap f = (pre ++ post).filterMap f := by
  simp [List.filterMap_append, List.filterMap_cons, h]

theorem categoryLabels_skip (A B : List Members) (pre post : Members) (name : String) (d : JVal)
    (h : visibleCategory d = none) :
    categoryLabels (A ++ (pre ++ (name, d) :: post) :: B) =
      categoryLabels (A ++ (pre ++ post) :: B) := by
  rw [categoryLabels_split, categoryLabels_split,
    filterMap_skip (fun m : String × JVal => visibleCategory m.2) pre post (name, d) h]

theorem categoryEditors_skip (c : String) (A B : List Members) (pre post : Members)
    (name : String) (d : JVal) (h : ∀ pi, editorOf c pi (name, d) = none) (pi : Nat) :
    categoryEditors c (A ++ (pre ++ (name, d) :: post) :: B) pi =
      categoryEditors c (A ++ (pre ++ post) :: B) pi := by
  rw [categoryEditors_append, categoryEditors_append]
  simp only [categoryEditors]
  rw [filterMap_skip _ pre post (name, d) (h _)]

theorem shownCollapsed_congr (s t : PropertyView)
    (hmap : t.categoryCollapsedState = s.categoryCollapsedState)
    (hcur : t.currentCategory = s.currentCategory)
    (hauto : t.autoCollapseChecked = s.autoCollapseChecked) (c : String) :
    shownCollapsed t c = shownCollapsed s c := by
  simp [shownCollapsed, hmap, hcur, hauto]

theorem conforming_of_subset (s t : PropertyView) (h : Conforming s)
    (hdoc : t.propertyDocument = s.propertyDocument)
    (hlen : (populated t).length = (populated s).length)
    (hsub : ∀ ms ∈ populated t, ∀ m ∈ ms, ∃ ms1 ∈ populated s, m ∈ ms1)
    (hlab : categoryLabels (populated t) = categoryLabels (populated s)) : Conforming t := by
  refine ⟨hdoc ▸ h.slots, hdoc ▸ h.objects, ?_, ?_, hlab ▸ h.capacity⟩
  · have := h.providers
    simp only [populated, List.length_map] at hlen
    omega
  · intro ms hms m hm
    obtain ⟨ms1, hms1, hm1⟩ := hsub ms hms m hm
    exact h.descriptors ms1 hms1 m hm1

theorem conforming_skip (s t : PropertyView) (h : Conforming s) (A B : List Members)
    (pre post : Members) (name : String) (d : JVal)
    (hs : populated s = A ++ (pre ++ (name, d) :: post) :: B)
    (ht : populated t = A ++ (pre ++ post) :: B)
    (hdoc : t.propertyDocument = s.propertyDocument)
    (hlab : categoryLabels (populated t) = categoryLabels (populated s)) : Conforming t := by
  refine conforming_of_subset s t h hdoc (by simp [hs, ht]) ?_ hlab
  intro ms hms m hm
  rw [ht, List.mem_append, List.mem_cons] at hms
  rw [hs]
  rcases hms with hms | rfl | hms
  · exact ⟨ms, by simp [hms], hm⟩
  · refine ⟨pre ++ (name, d) :: post, by simp, ?_⟩
    rw [List.mem_append] at hm ⊢
    rcases hm with hm | hm
    · exact Or.inl hm
    · exact Or.inr (List.mem_cons_of_mem _ hm)
  · exact ⟨ms, by simp [hms], hm⟩

/-! ## Internal descriptors (C6) and unknown editor kinds (C7) -/

theorem categorySection_skip (s t : PropertyView) (A B : List Members) (pre post : Members)
    (name : String) (d : JVal)
    (hs : populated s = A ++ (pre ++ (name, d) :: post) :: B)
    (ht : populated t = A ++ (pre ++ post) :: B)
    (hmap : t.categoryCollapsedState = s.categoryCollapsedState)
    (hcur : t.currentCategory = s.currentCategory)
    (hauto : t.autoCollapseChecked = s.autoCollapseChecked)
    (hnone : ∀ c pi, editorOf c pi (name, d) = none) :
    categorySection s = categorySection t := by
  funext c
  simp only [categorySection, shownCollapsed_congr s t hmap hcur hauto c, hs, ht,
    categoryEditors_skip c A B pre post name d (hnone c) 0]

theorem visibleCategory_of_members (d : JVal) (c : String)
    (hcat : d.member "cat" = .ok (.str c)) (hint : d.member "internal" = .ok (.bool false)) :
    visibleCategory d = some (cstr c) := by
  cases d with
  | obj ms =>
    simp only [JVal.member] at hcat hint
    cases h1 : findMember "cat" ms with
    | none => rw [h1] at hcat; cases hcat
    | some v1 =>
      cases h2 : findMember "internal" ms with
      | none => rw [h2] at hint; cases hint
      | some v2 =>
        rw [h1] at hcat
        rw [h2] at hint
        injection hcat with hcat
        injection hint with hint
        subst hcat
        subst hint
        simp [visibleCategory, descriptorLabel, h1, h2]
  | _ => cases hcat

theorem mem_categoryLabels_split (A B : List Members) (pre post : Members) (name : String)
    (d : JVal) (c : String) (h : visibleCategory d = some c) :
    c ∈ categoryLabels (A ++ (pre ++ (name, d) :: post) :: B) := by
  rw [categoryLabels_split]
  simp only [List.mem_append, List.mem_filterMap]
  exact Or.inr (Or.inl ⟨(name, d), by simp, h⟩)

theorem conforming_panelHidden : Conforming panelHidden :=
  ⟨by decide, by decide, by decide, by decide, by decide⟩

theorem conforming_panelOdd : Conforming panelOdd :=
  ⟨by decide, by decide, by decide, by decide, by decide⟩

/-- C6: a descriptor whose internal flag is true contributes no category and
no editor widget: the render cycle of the panel and the render cycle of the
panel whose provider set lacks the descriptor both return, with the same
category headers, the same layout and the same collapsed-state map. -/
theorem C6_internal_descriptor_as_absent (s t : PropertyView) (h : Conforming s)
    (A B : List Members) (pre post : Members) (name : String) (d : JVal)
    (hint : d.member "internal" = .ok (.bool true))
    (hs : populated s = A ++ (pre ++ (name, d) :: post) :: B)
    (ht : populated t = A ++ (pre ++ post) :: B)
    (hdoc : t.propertyDocument = s.propertyDocument)
    (hmap : t.categoryCollapsedState = s.categoryCollapsedState)
    (hcur : t.currentCategory = s.currentCategory)
    (hauto : t.autoCollapseChecked = s.autoCollapseChecked) :
    ∃ s1 t1, clearAndUpdatePropertyView s = .ok s1 ∧ clearAndUpdatePropertyView t = .ok t1 ∧
      headerTitles s1.layout = headerTitles t1.layout ∧
      s1.layout = t1.layout ∧
      s1.categoryCollapsedState = t1.categoryCollapsedState := by
  have hvis : visibleCategory d = none := visibleCategory_of_internal d hint
  have hlab : categoryLabels (populated t) = categoryLabels (populated s) := by
    rw [hs, ht, categoryLabels_skip A B pre post name d hvis]
  have hconf : Conforming t := conforming_skip s t h A B pre post name d hs ht hdoc hlab
  have hsec : categorySection s = categorySection t :=
    categorySection_skip s t A B pre post name d hs ht hmap hcur hauto
      (fun c pi => editorOf_of_not_visible c pi (name, d) hvis)
  have hlay : expectedLayout s = expectedLayout t := by
    simp only [expectedLayout, hlab, hsec]
  refine ⟨rendered s, rendered t, clearAndUpdatePropertyView_eq s h,
    clearAndUpdatePropertyView_eq t hconf, ?_, hlay, ?_⟩
  · show headerTitles (expectedLayout s) = headerTitles (expectedLayout t)
    rw [hlay]
  · show touchCategories _ _ _ = touchCategories _ _ _
    rw [hlab, hmap, hauto]

/-- C6 at a panel whose internal descriptor carries the category Z, which no
other descriptor carries. -/
theorem C6_internal_descriptor_as_absent_witness :
    ∃ s1 t1, clearAndUpdatePropertyView panelHidden = .ok s1 ∧
      clearAndUpdatePropertyView panelHiddenAbsent = .ok t1 ∧
      headerTitles s1.layout = headerTitles t1.layout ∧
      s1.layout = t1.layout ∧
      s1.categoryCollapsedState = t1.categoryCollapsedState :=
  C6_internal_descriptor_as_absent panelHidden panelHiddenAbsent conforming_panelHidden
    [] [] [("p", descriptor "A" "float")] [("q", descriptor "B" "vec3")] "hidden"
    (internalDescriptor "Z") rfl rfl rfl rfl rfl rfl rfl

/-- C7 as stated fails: the editor kind of this panel's descriptor is `vec2`
followed by a NUL character and `zz`, none of the recognized values by string
equality, and the render cycle builds a Vec2 editor for it. -/
theorem C7_kind_equal_up_to_nul_gets_an_editor :
    "vec2\x00zz" ∉ recognizedEditors ∧
      (clearAndUpdatePropertyView panelNulEditor).map (fun s1 => s1.layout) =
        .ok [Widget.header "A" false, Widget.editor EditorKind.vec2 0 "v", Widget.spacer] := by
  exact ⟨by decide, rfl⟩

/-- C7, amended: a non-internal descriptor whose editor kind, read as a C
string, is none of vec2, vec3, vec4, string, enum, float, rotation gets no
editor widget and raises no fault; the render cycle returns, its headers are
those of all the descriptors, that of the descriptor included, and the editors
under each header are those of the provider set without the descriptor, in the
same order. -/
theorem C7_unrecognized_editor_kind (s t : PropertyView) (h : Conforming s)
    (A B : List Members) (pre post : Members) (name : String) (d : JVal) (e : String)
    (hint : d.member "internal" = .ok (.bool false))
    (hed : d.member "editor" = .ok (.str e))
    (hun : cstr e ∉ recognizedEditors)
    (hs : populated s = A ++ (pre ++ (name, d) :: post) :: B)
    (ht : populated t = A ++ (pre ++ post) :: B)
    (hmap : t.categoryCollapsedState = s.categoryCollapsedState)
    (hcur : t.currentCategory = s.currentCategory)
    (hauto : t.autoCollapseChecked = s.autoCollapseChecked) :
    dispatchEditor e = none ∧
      (∀ category pi, createPropertyEditor category pi name d = .ok []) ∧
      ∃ s1, clearAndUpdatePropertyView s = .ok s1 ∧
        headerTitles s1.layout = firstAppearance (categoryLabels (populated s)) ∧
        (∀ c, d.member "cat" = .ok (.str c) → cstr c ∈ headerTitles s1.layout) ∧
        s1.layout =
          (firstAppearance (categoryLabels (populated s))).flatMap (categorySection t)
            ++ [Widget.spacer] := by
  have hdisp : dispatchEditor e = none := dispatchEditor_eq_none e hun
  have hnone : ∀ c pi, editorOf c pi (name, d) = none := by
    intro c pi
    simp only [editorOf, hed]
    cases visibleCategory d with
    | none => rfl
    | some c1 => by_cases hc : c1 = c <;> simp [hc, hdisp]
  have hok : descriptorOk d = true :=
    h.descriptors (pre ++ (name, d) :: post) (by rw [hs]; simp) (name, d) (by simp)
  refine ⟨hdisp, ?_, rendered s, clearAndUpdatePropertyView_eq s h,
    headerTitles_expectedLayout s, ?_, ?_⟩
  · intro category pi
    rw [createPropertyEditor_eq category pi name d hok, hnone]
    rfl
  · intro c hcat
    show cstr c ∈ headerTitles (expectedLayout s)
    rw [headerTitles_expectedLayout, mem_firstAppearance, hs]
    exact mem_categoryLabels_split A B pre post name d (cstr c)
      (visibleCategory_of_members d c hcat hint)
  · show expectedLayout s = _
    rw [expectedLayout, categorySection_skip s t A B pre post name d hs ht hmap hcur hauto hnone]

/-- C7, amended, at a panel whose descriptor of the unknown kind `color` is the
first of category B: the headers are B, A and the editors are those of the
other two descriptors. -/
theorem C7_unrecognized_editor_kind_witness :
    dispatchEditor "color" = none ∧
      (∀ category pi, createPropertyEditor category pi "odd" (descriptor "B" "color") = .ok []) ∧
      ∃ s1, clearAndUpdatePropertyView panelOdd = .ok s1 ∧
        headerTitles s1.layout = firstAppearance (categoryLabels (populated panelOdd)) ∧
        (∀ c, (descriptor "B" "color").member "cat" = .ok (.str c) →
          cstr c ∈ headerTitles s1.layout) ∧
        s1.layout =
          (firstAppearance (categoryLabels (populated panelOdd))).flatMap
            (categorySection panelOddAbsent) ++ [Widget.spacer] :=
  C7_unrecognized_editor_kind panelOdd panelOddAbsent conforming_panelOdd
    [] [] [] [("p", descriptor "A" "float"), ("q", descriptor "B" "vec3")] "odd"
    (descriptor "B" "color") "color" rfl rfl (by decide) rfl rfl rfl rfl rfl

/-! ## The value-changed callback (C2, C10) -/

theorem onValueChangedFrom_of_no_match (s : PropertyView) (p : JVal) (slots : List JVal) :
    ∀ (i : Nat) (calls : List Call), (∀ v ∈ slots, v.eqv p = false) →
      onValueChangedFrom s p slots i calls = .ok calls := by
  induction slots with
  | nil => intro i calls _; rfl
  | cons v rest ih =>
    intro i calls h
    have hv : v.eqv p = false := h v (List.mem_cons_self _ _)
    simp only [onValueChangedFrom, hv, Bool.false_eq_true, if_false]
    exact ih _ _ (fun w hw => h w (List.mem_cons_of_mem _ hw))

theorem onValueChangedFrom_of_unique_match (s : PropertyView) (p : JVal) (before : List JVal) :
    ∀ (i : Nat) (calls : List Call) (cur : JVal) (after : List JVal)
      (entry : PropertyCompilerEntry) (managerEntry : ManagerEntry),
      (∀ v ∈ before, v.eqv p = false) → cur.eqv p = true → (∀ v ∈ after, v.eqv p = false) →
      s.currentPropertyCompilerEntries[i + before.length]? = some entry →
      s.currentManagerEntries[i + before.length]? = some managerEntry →
      onValueChangedFrom s p (before ++ cur :: after) i calls =
        .ok (calls ++ valueChangedCalls entry managerEntry p) := by
  induction before with
  | nil =>
    intro i calls cur after entry managerEntry _ hcur hafter he hm
    simp only [List.length_nil, Nat.add_zero] at he hm
    simp only [List.nil_append, onValueChangedFrom, hcur, if_true, he, hm]
    exact onValueChangedFrom_of_no_match s p after _ _ hafter
  | cons v rest ih =>
    intro i calls cur after entry managerEntry hbefore hcur hafter he hm
    have hv : v.eqv p = false := hbefore v (List.mem_cons_self _ _)
    simp only [List.cons_append, onValueChangedFrom, hv, Bool.false_eq_true, if_false]
    refine ih (i + 1) calls cur after entry managerEntry
      (fun w hw => hbefore w (List.mem_cons_of_mem _ hw)) hcur hafter ?_ ?_
    · rw [← he]; congr 1; simp only [List.length_cons]; omega
    · rw [← hm]; congr 1; simp only [List.length_cons]; omega

/-- When the argument matches the slot of provider `i` and no other slot of the
document, `onValueChanged` makes the calls of provider `i` and no others: the
apply function, then destroy and create when both hooks are set, then the
post-update hook when it is set. -/
theorem onValueChanged_of_unique_match (s : PropertyView) (p : JVal) (before after : List JVal)
    (cur : JVal) (entry : PropertyCompilerEntry) (managerEntry : ManagerEntry)
    (hdoc : s.propertyDocument = before ++ cur :: after)
    (hbefore : ∀ v ∈ before, v.eqv p = false) (hcur : cur.eqv p = true)
    (hafter : ∀ v ∈ after, v.eqv p = false)
    (he : s.currentPropertyCompilerEntries[before.length]? = some entry)
    (hm : s.currentManagerEntries[before.length]? = some managerEntry) :
    onValueChanged s p = .ok (valueChangedCalls entry managerEntry p) := by
  rw [onValueChanged, hdoc]
  have h := onValueChangedFrom_of_unique_match s p before 0 [] cur after entry managerEntry
    hbefore hcur hafter (by simpa using he) (by simpa using hm)
  simpa using h

/-- C2 fails on the code: after a render cycle of two providers with equal
sets, the value-changed callback of the slot of provider 0 also calls the
apply function and the three hooks of provider 1. -/
theorem C2_second_provider_is_called :
    (clearAndUpdatePropertyView twinPanel >>= fun s =>
        onValueChanged s (s.propertyDocument.headD JVal.null)) =
      .ok [Call.initFunction 100 0 (JVal.obj sharedSet),
        Call.destroyResources 1 [0], Call.createResources 2 [0],
        Call.onPropertyUpdateFinished 3 0,
        Call.initFunction 101 1 (JVal.obj sharedSet),
        Call.destroyResources 1 [1], Call.createResources 2 [1],
        Call.onPropertyUpdateFinished 3 1] := by
  rfl

/-- C10 fails on the code: in the panel of `stalePanel` there is one provider,
slot 1 still holds the set of the earlier selection, it equals the slot of
provider 0, and the value-changed callback of that slot indexes the entry lists
at position 1. -/
theorem C10_stale_slot_indexes_past_the_entries :
    stalePanel.map (fun s => s.currentPropertyCompilerEntries.length) = .ok 1 ∧
      stalePanel.map (fun s => (s.propertyDocument.take 2).map (fun v => v.eqv (JVal.obj sharedSet)))
        = .ok [true, true] ∧
      (stalePanel >>= fun s => onValueChanged s (s.propertyDocument.headD JVal.null)) =
        .error Fault.entryOutOfRange := by
  exact ⟨rfl, rfl, rfl⟩

end IntrinsicEd
